import Mathlib

/-!
# Verification of the InstaBot credential/session core

Shallow embedding of the repository's core modules:

* `insta_username_extract.py` — username validation and URL extraction
  (`is_valid_instagram_username`, `extract_instagram_username`);
* `encryption_handler.py` — `encrypt_data` / `decrypt_data` over a JSON
  serialization of the credential dict, with the Fernet cipher of the external
  `cryptography` library modelled abstractly;
* `instagram_handler.py` — `save_credentials`, `mask_password`,
  `attempt_login`, `check_livestream`;
* `TelegramBot/handlers/commands/insta_conf_commands.py` and
  `TelegramBot/handlers/messages/text_message.py` — the command and message
  handlers, combined into a step relation on the shared application state.
-/

namespace InstaBot

/-! ## Username normalizer (`insta_username_extract.py`)

Characters admitted by the character class `[a-zA-Z0-9_.]` of both regexes.
Python's `re` ranges are ASCII, as are Lean's `Char.isAlpha`/`Char.isDigit`. -/

def isAllowedChar (c : Char) : Bool :=
  c.isAlpha || c.isDigit || c = '_' || c = '.'

/-- Python `'..' in s`: does the character list contain two consecutive dots? -/
def hasDotDot : List Char → Bool
  | '.' :: '.' :: _ => true
  | _ :: rest => hasDotDot rest
  | [] => false

/-- Truthiness of `re.compile(r"^[a-zA-Z0-9_.]+$").match(username)`.

Python (without `re.MULTILINE`) lets `$` match at the end of the string *or
just before a trailing newline*.  A greedy `+` over the character class with
backtracking therefore matches iff either the whole string is a non-empty run
of allowed characters, or the string ends in `'\n'` and everything before that
final newline is a non-empty run of allowed characters. -/
def allowedCharsPatternMatch (l : List Char) : Bool :=
  (!l.isEmpty && l.all isAllowedChar) ||
    (l.getLast? = some '\n' && !l.dropLast.isEmpty && l.dropLast.all isAllowedChar)

/-- `is_valid_instagram_username` from `insta_username_extract.py`:
length in `[1, 30]`, does not start or end with `'.'`,
`re.match(r"^[a-zA-Z0-9_.]+$", username)` truthy, and no `'..'` substring. -/
def is_valid_instagram_username (username : String) : Bool :=
  if !(1 ≤ username.length && username.length ≤ 30) then false
  else if username.data.head? = some '.' || username.data.getLast? = some '.' then false
  else if !allowedCharsPatternMatch username.data || hasDotDot username.data then false
  else true

/-- The spec's §4.3/§8 validation condition, stated from the spec's words
("length in [1,30]; does not start or end with `.`; contains only
`[a-zA-Z0-9_.]`; contains no `..` substring"), for comparison with the
source's `is_valid_instagram_username`. -/
def specValidUsername (s : String) : Bool :=
  (1 ≤ s.length && s.length ≤ 30) &&
    !(s.data.head? = some '.') && !(s.data.getLast? = some '.') &&
    s.data.all isAllowedChar && !hasDotDot s.data

/-- Strip a literal prefix from a character list, or fail. -/
def dropPrefixCh : List Char → List Char → Option (List Char)
  | [], l => some l
  | _ :: _, [] => none
  | p :: ps, c :: cs => if p = c then dropPrefixCh ps cs else none

/-- The match of
`re.compile(r"^(?:https?://)?(?:www\.)?instagram\.com/(?P<username>[a-zA-Z0-9_.]+)")`
on the input, returning the captured group when the regex matches.

The regex is anchored at the start; backtracking over the two optional
non-capturing groups is deterministic here because an input starting with
`https://` or `http://` cannot simultaneously start with `www.` or
`instagram.com/` (and similarly for `www.`), so the greedy
strip-scheme-then-strip-www order is the unique way a match can succeed.
The capture group is the maximal non-empty run of `[a-zA-Z0-9_.]` characters
after `instagram.com/`. -/
def urlPatternCapture (l : List Char) : Option (List Char) :=
  let l1 :=
    match dropPrefixCh ['h', 't', 't', 'p', 's', ':', '/', '/'] l with
    | some r => r
    | none =>
      match dropPrefixCh ['h', 't', 't', 'p', ':', '/', '/'] l with
      | some r => r
      | none => l
  let l2 :=
    match dropPrefixCh ['w', 'w', 'w', '.'] l1 with
    | some r => r
    | none => l1
  match dropPrefixCh ['i', 'n', 's', 't', 'a', 'g', 'r', 'a', 'm', '.', 'c', 'o', 'm', '/'] l2 with
  | some rest =>
    let captured := rest.takeWhile isAllowedChar
    if captured.isEmpty then none else some captured
  | none => none

/-- `extract_instagram_username` from `insta_username_extract.py`.
If the URL regex matches, the candidate is the captured group; otherwise the
candidate is the raw input with `input_string.lstrip('@')` applied — Python's
`str.lstrip` strips **all** leading `'@'` characters, not just one.
The candidate is then validated; `None` is returned on validation failure. -/
def extract_instagram_username (input_string : String) : Option String :=
  let potential_username : List Char :=
    match urlPatternCapture input_string.data with
    | some captured => captured
    | none => input_string.data.dropWhile (· = '@')
  if is_valid_instagram_username (String.mk potential_username) then
    some (String.mk potential_username)
  else
    none

theorem dropPrefixCh_self_append (p t : List Char) : dropPrefixCh p (p ++ t) = some t := by
  induction p with
  | nil => rfl
  | cons c cs ih => simp [dropPrefixCh, ih]

theorem takeWhile_of_all {l : List Char} {p : Char → Bool} (h : l.all p = true) :
    l.takeWhile p = l := by
  induction l with
  | nil => rfl
  | cons c cs ih =>
    simp only [List.all_cons, Bool.and_eq_true] at h
    simp [List.takeWhile_cons, h.1, ih h.2]

theorem urlCapture_instagram (s : List Char) (hne : s ≠ []) (hall : s.all isAllowedChar = true) :
    urlPatternCapture (['i', 'n', 's', 't', 'a', 'g', 'r', 'a', 'm', '.', 'c', 'o', 'm', '/'] ++ s)
      = some s := by
  have h1 : dropPrefixCh ['h', 't', 't', 'p', 's', ':', '/', '/']
      (['i', 'n', 's', 't', 'a', 'g', 'r', 'a', 'm', '.', 'c', 'o', 'm', '/'] ++ s) = none := rfl
  have h2 : dropPrefixCh ['h', 't', 't', 'p', ':', '/', '/']
      (['i', 'n', 's', 't', 'a', 'g', 'r', 'a', 'm', '.', 'c', 'o', 'm', '/'] ++ s) = none := rfl
  have h3 : dropPrefixCh ['w', 'w', 'w', '.']
      (['i', 'n', 's', 't', 'a', 'g', 'r', 'a', 'm', '.', 'c', 'o', 'm', '/'] ++ s) = none := rfl
  simp only [urlPatternCapture, h1, h2, h3, dropPrefixCh_self_append, takeWhile_of_all hall]
  simp [List.isEmpty_iff, hne]

theorem urlCapture_https_instagram (s : List Char) (hne : s ≠ [])
    (hall : s.all isAllowedChar = true) :
    urlPatternCapture (['h', 't', 't', 'p', 's', ':', '/', '/'] ++
      (['i', 'n', 's', 't', 'a', 'g', 'r', 'a', 'm', '.', 'c', 'o', 'm', '/'] ++ s)) = some s := by
  have h3 : dropPrefixCh ['w', 'w', 'w', '.']
      (['i', 'n', 's', 't', 'a', 'g', 'r', 'a', 'm', '.', 'c', 'o', 'm', '/'] ++ s) = none := rfl
  simp only [urlPatternCapture, dropPrefixCh_self_append, h3, takeWhile_of_all hall]
  simp [List.isEmpty_iff, hne]

theorem urlCapture_https_www_instagram (s : List Char) (hne : s ≠ [])
    (hall : s.all isAllowedChar = true) :
    urlPatternCapture (['h', 't', 't', 'p', 's', ':', '/', '/'] ++ (['w', 'w', 'w', '.'] ++
      (['i', 'n', 's', 't', 'a', 'g', 'r', 'a', 'm', '.', 'c', 'o', 'm', '/'] ++ s))) = some s := by
  simp only [urlPatternCapture, dropPrefixCh_self_append, takeWhile_of_all hall]
  simp [List.isEmpty_iff, hne]

theorem spec_valid_imp_valid (s : String) (h : specValidUsername s = true) :
    is_valid_instagram_username s = true := by
  simp only [specValidUsername, Bool.and_eq_true, Bool.not_eq_true', decide_eq_true_eq,
    decide_eq_false_iff_not] at h
  obtain ⟨⟨⟨⟨hlen, hhead⟩, hlast⟩, hall⟩, hdd⟩ := h
  have hne : s.data ≠ [] := by
    intro hnil
    have : s.length = 0 := by simp [String.length, hnil]
    omega
  simp [is_valid_instagram_username, allowedCharsPatternMatch, hlen.1, hlen.2, hhead, hlast,
    hall, hdd, List.isEmpty_iff, hne]

theorem allowedCharsPatternMatch_iff (l : List Char) :
    allowedCharsPatternMatch l = true ↔
      ((l ≠ [] ∧ l.all isAllowedChar = true) ∨
        (l.getLast? = some '\n' ∧ l.dropLast ≠ [] ∧ l.dropLast.all isAllowedChar = true)) := by
  simp [allowedCharsPatternMatch, List.isEmpty_iff, and_assoc]

theorem valid_characterization (s : String) :
    is_valid_instagram_username s = true ↔
      (specValidUsername s = true ∨
        (s.data.getLast? = some '\n' ∧ s.data.dropLast ≠ [] ∧
          s.data.dropLast.all isAllowedChar = true ∧ s.length ≤ 30 ∧
          s.data.head? ≠ some '.' ∧ hasDotDot s.data = false)) := by
  constructor
  · intro h
    simp only [is_valid_instagram_username] at h
    split at h
    · exact absurd h (by simp)
    · split at h
      · exact absurd h (by simp)
      · split at h
        · exact absurd h (by simp)
        · rename_i h1 h2 h3
          simp only [Bool.not_eq_true, Bool.not_eq_true', Bool.or_eq_true, Bool.and_eq_true,
            Bool.or_eq_false_iff, Bool.not_eq_false', Bool.not_eq_false,
            decide_eq_true_eq, decide_eq_false_iff_not, not_or] at h1 h2 h3
          obtain ⟨hmatch, hdd⟩ := h3
          rw [allowedCharsPatternMatch_iff] at hmatch
          rcases hmatch with ⟨hne, hall⟩ | ⟨hnl, hne, hall⟩
          · left
            simp [specValidUsername, h1.1, h1.2, h2.1, h2.2, hall, hdd]
          · right
            exact ⟨hnl, hne, hall, h1.2, h2.1, hdd⟩
  · rintro (h | ⟨hnl, hne, hall, hlen, hhead, hdd⟩)
    · exact spec_valid_imp_valid s h
    · have hlen1 : 1 ≤ s.length := by
        have : s.data ≠ [] := by
          intro hnil
          simp [hnil] at hnl
        simp only [String.length]
        have := List.length_pos.mpr this
        omega
      have hlast : s.data.getLast? ≠ some '.' := by
        rw [hnl]
        simp
      simp [is_valid_instagram_username, allowedCharsPatternMatch, hlen1, hlen, hhead, hlast,
        hdd, hnl, hne, List.isEmpty_iff, hall]

theorem dropWhile_at_replicate (k : Nat) (t : List Char) (h : t.head? ≠ some '@') :
    (List.replicate k '@' ++ t).dropWhile (· = '@') = t := by
  induction k with
  | zero =>
    cases t with
    | nil => rfl
    | cons c cs =>
      have hc : ¬(c = '@') := by
        intro hc
        exact h (by simp [hc])
      simp [List.dropWhile_cons, hc]
  | succ n ih => simp [List.replicate_succ, List.dropWhile_cons, ih]

/-- **C5** (corrected).  Every string `s` of length 1–30 over `[a-zA-Z0-9_.]`,
not starting or ending with `'.'` and with no `".."`, is accepted by
`is_valid_instagram_username`, and each of the three supported URL prefixes
normalizes to exactly `s`.  However, acceptance is *not* limited to such
strings: because Python's `$` also matches just before a trailing newline,
the validator additionally accepts exactly the strings that consist of a
non-empty run of allowed characters followed by a single final `'\n'`
(subject to the same length, leading-dot and `".."` checks). -/
theorem claim_C5_amended :
    (∀ s : String, specValidUsername s = true →
      is_valid_instagram_username s = true ∧
      extract_instagram_username ("instagram.com/" ++ s) = some s ∧
      extract_instagram_username ("https://instagram.com/" ++ s) = some s ∧
      extract_instagram_username ("https://www.instagram.com/" ++ s) = some s) ∧
    (∀ s : String, is_valid_instagram_username s = true ↔
      (specValidUsername s = true ∨
        (s.data.getLast? = some '\n' ∧ s.data.dropLast ≠ [] ∧
          s.data.dropLast.all isAllowedChar = true ∧ s.length ≤ 30 ∧
          s.data.head? ≠ some '.' ∧ hasDotDot s.data = false))) := by
  constructor
  · intro s h
    have hvalid := spec_valid_imp_valid s h
    simp only [specValidUsername, Bool.and_eq_true, Bool.not_eq_true', decide_eq_true_eq,
      decide_eq_false_iff_not] at h
    obtain ⟨⟨⟨⟨hlen, _⟩, _⟩, hall⟩, _⟩ := h
    have hne : s.data ≠ [] := by
      intro hnil
      have : s.length = 0 := by simp [String.length, hnil]
      omega
    have hmk : String.mk s.data = s := by cases s; rfl
    refine ⟨hvalid, ?_, ?_, ?_⟩
    · have hd : ("instagram.com/" ++ s).data
          = ['i', 'n', 's', 't', 'a', 'g', 'r', 'a', 'm', '.', 'c', 'o', 'm', '/'] ++ s.data := by
        rw [String.data_append]
      simp only [extract_instagram_username, hd, urlCapture_instagram s.data hne hall, hmk,
        hvalid, if_true]
    · have hd : ("https://instagram.com/" ++ s).data
          = ['h', 't', 't', 'p', 's', ':', '/', '/'] ++
            (['i', 'n', 's', 't', 'a', 'g', 'r', 'a', 'm', '.', 'c', 'o', 'm', '/'] ++ s.data) := by
        have e : "https://instagram.com/".data
            = ['h', 't', 't', 'p', 's', ':', '/', '/'] ++
              ['i', 'n', 's', 't', 'a', 'g', 'r', 'a', 'm', '.', 'c', 'o', 'm', '/'] := by decide
        rw [String.data_append, e, List.append_assoc]
      simp only [extract_instagram_username, hd, urlCapture_https_instagram s.data hne hall, hmk,
        hvalid, if_true]
    · have hd : ("https://www.instagram.com/" ++ s).data
          = ['h', 't', 't', 'p', 's', ':', '/', '/'] ++ (['w', 'w', 'w', '.'] ++
            (['i', 'n', 's', 't', 'a', 'g', 'r', 'a', 'm', '.', 'c', 'o', 'm', '/'] ++ s.data)) := by
        have e : "https://www.instagram.com/".data
            = ['h', 't', 't', 'p', 's', ':', '/', '/'] ++ (['w', 'w', 'w', '.'] ++
              ['i', 'n', 's', 't', 'a', 'g', 'r', 'a', 'm', '.', 'c', 'o', 'm', '/']) := by decide
        rw [String.data_append, e, List.append_assoc, List.append_assoc]
      simp only [extract_instagram_username, hd, urlCapture_https_www_instagram s.data hne hall,
        hmk, hvalid, if_true]
  · exact valid_characterization

/-- **C5** counterexample to the claim as stated: `"a\n"` violates the
"only `[a-zA-Z0-9_.]` characters" condition, yet the source's validator
accepts it (Python's `$` matches before the trailing newline). -/
theorem claim_C5_counterexample :
    specValidUsername "a\n" = false ∧ is_valid_instagram_username "a\n" = true := by decide

/-- **C5** witness: the amended theorem applied at the concrete username
`"john"`. -/
theorem claim_C5_witness :
    is_valid_instagram_username "john" = true ∧
      extract_instagram_username "https://www.instagram.com/john" = some "john" :=
  ⟨(claim_C5_amended.1 "john" (by decide)).1, (claim_C5_amended.1 "john" (by decide)).2.2.2⟩

/-- **C6** (corrected).  When the URL pattern does not match, stage 1 takes
the raw input with **all** leading `'@'` characters stripped (Python's
`str.lstrip('@')`), not just one: an input `'@' * k ++ t` (with `t` not
starting in `'@'`) has candidate `t`, so `"@@john"` normalizes to `"john"`
rather than being rejected. -/
theorem claim_C6_amended (k : Nat) (t : String) (hhead : t.data.head? ≠ some '@')
    (hurl : urlPatternCapture (List.replicate k '@' ++ t.data) = none) :
    extract_instagram_username (String.mk (List.replicate k '@' ++ t.data)) =
      if is_valid_instagram_username t = true then some t else none := by
  have hmk : String.mk t.data = t := by cases t; rfl
  simp only [extract_instagram_username, hurl, dropWhile_at_replicate k t.data hhead, hmk]

/-- **C6** counterexample to the claim as stated: the claim says `"@@john"`
keeps one `'@'` as candidate and is rejected, but the source strips all
leading `'@'` and returns `"john"`. -/
theorem claim_C6_counterexample :
    extract_instagram_username "@@john" = some "john" ∧
      extract_instagram_username "@@john" ≠ none := by decide

/-- **C6** witness: the amended theorem applied at `k = 2`, `t = "john"`. -/
theorem claim_C6_witness :
    extract_instagram_username (String.mk (List.replicate 2 '@' ++ "john".data))
      = some "john" := by
  rw [claim_C6_amended 2 "john" (by decide) (by decide)]
  decide

example : is_valid_instagram_username "john.doe_1" = true := by decide
example : is_valid_instagram_username "jo..hn" = false := by decide
example : is_valid_instagram_username ".john" = false := by decide
example : is_valid_instagram_username "" = false := by decide
-- the Python `$`-before-trailing-newline quirk:
example : is_valid_instagram_username "a\n" = true := by decide
example : extract_instagram_username "https://www.instagram.com/john" = some "john" := by decide
example : extract_instagram_username "@john.doe_1" = some "john.doe_1" := by decide
example : extract_instagram_username "@@john" = some "john" := by decide
example : extract_instagram_username "instagram.com/" = none := by decide

/-! ## Secret Codec (`encryption_handler.py`)

`encrypt_data` serializes the credential dict with `json.dumps` (default
options: `ensure_ascii=True`, item separator `", "`, key separator `": "`),
encodes the result as UTF-8 and encrypts it with the Fernet cipher;
`decrypt_data` inverts the steps and returns `{}` on any failure
(`InvalidToken` from the cipher, or any other exception such as a decode or
JSON parse error).

The credential dict is modelled as an insertion-ordered association list of
string keys and string values — the only shape this program ever stores.
`json.dumps` / `json.loads` (Python stdlib) are implemented below for such
objects.  The Fernet cipher of the external `cryptography` library is
modelled abstractly as a pair of byte-list functions: authenticated
encryption means decryption under the same key inverts encryption and fails
(`InvalidToken`, i.e. `none`) on a corrupted blob or a wrong key.  Bytes are
`List Nat`; since `json.dumps(..., ensure_ascii=True)` emits pure ASCII,
UTF-8 encoding is byte-per-character, and `bytes.decode('utf-8')` is
modelled on the ASCII range (treating non-ASCII decrypted bytes as a decode
failure, one of the paths absorbed into `{}`). -/

/-- The credential dict `{username, password}`: an insertion-ordered
association list of string keys and values. -/
abbrev CredDict := List (String × String)

/-- The lowercase hex digit character for `n < 16`, as produced by Python's
`"\u%04x"` formatting. -/
def hexDigitChar (n : Nat) : Char :=
  if n < 10 then Char.ofNat (48 + n) else Char.ofNat (87 + n)

/-- Four lowercase hex digits for `n < 0x10000`. -/
def toHex4 (n : Nat) : List Char :=
  [hexDigitChar (n / 4096 % 16), hexDigitChar (n / 256 % 16),
   hexDigitChar (n / 16 % 16), hexDigitChar (n % 16)]

/-- `json.dumps` escaping of one character with `ensure_ascii=True`
(CPython's `py_encode_basestring_ascii`): `"` and `\` get a backslash
escape, the five named control characters use their short forms, all other
characters outside `0x20..0x7e` become `\uXXXX` (astral characters as a
UTF-16 surrogate pair), and characters in `0x20..0x7e` stand for
themselves. -/
def escChar (c : Char) : List Char :=
  if c = '"' then ['\\', '"']
  else if c = '\\' then ['\\', '\\']
  else if c.toNat = 8 then ['\\', 'b']
  else if c.toNat = 9 then ['\\', 't']
  else if c.toNat = 10 then ['\\', 'n']
  else if c.toNat = 12 then ['\\', 'f']
  else if c.toNat = 13 then ['\\', 'r']
  else if c.toNat < 0x20 then '\\' :: 'u' :: toHex4 c.toNat
  else if c.toNat ≤ 0x7e then [c]
  else if c.toNat < 0x10000 then '\\' :: 'u' :: toHex4 c.toNat
  else
    '\\' :: 'u' :: toHex4 (0xd800 + (c.toNat - 0x10000) / 0x400) ++
      '\\' :: 'u' :: toHex4 (0xdc00 + (c.toNat - 0x10000) % 0x400)

/-- A JSON string literal: quote, escaped characters, quote. -/
def escString (s : String) : List Char :=
  '"' :: (s.data.map escChar).flatten ++ ['"']

/-- `", ".join(items)`-style separator joining. -/
def joinSep (sep : List Char) : List (List Char) → List Char
  | [] => []
  | [x] => x
  | x :: xs => x ++ sep ++ joinSep sep xs

/-- One `"key": "value"` member with `json.dumps`'s default `": "` key
separator. -/
def memberChars (kv : String × String) : List Char :=
  escString kv.1 ++ ':' :: ' ' :: escString kv.2

/-- `json.dumps(data)` for a string-to-string dict, with the default
`", "` item separator, as a character list. -/
def jsonDumps (d : CredDict) : List Char :=
  '{' :: joinSep [',', ' '] (d.map memberChars) ++ ['}']

/-- Numeric value of one hex digit, for `\uXXXX` parsing. -/
def hexVal (c : Char) : Option Nat :=
  if 48 ≤ c.toNat ∧ c.toNat ≤ 57 then some (c.toNat - 48)
  else if 97 ≤ c.toNat ∧ c.toNat ≤ 102 then some (c.toNat - 87)
  else if 65 ≤ c.toNat ∧ c.toNat ≤ 70 then some (c.toNat - 55)
  else none

/-- Read one escape sequence (the part after the backslash), as in CPython's
`py_scanstring`: the eight short escapes, or `\uXXXX` with a UTF-16
surrogate pair combined into one astral character.  A lone surrogate escape
is rejected (Python would produce a surrogate code unit there, which a
Unicode-scalar string cannot hold; `json.dumps` of a scalar string never
emits one). -/
def readEsc : List Char → Option (Char × List Char)
  | 'u' :: a :: b :: c :: d :: rest =>
    match hexVal a, hexVal b, hexVal c, hexVal d with
    | some x, some y, some z, some w =>
      let n := x * 4096 + y * 256 + z * 16 + w
      if n < 0xd800 then some (Char.ofNat n, rest)
      else if n ≤ 0xdbff then
        match rest with
        | '\\' :: 'u' :: a2 :: b2 :: c2 :: d2 :: rest2 =>
          match hexVal a2, hexVal b2, hexVal c2, hexVal d2 with
          | some x2, some y2, some z2, some w2 =>
            let m := x2 * 4096 + y2 * 256 + z2 * 16 + w2
            if 0xdc00 ≤ m ∧ m ≤ 0xdfff then
              some (Char.ofNat (0x10000 + (n - 0xd800) * 0x400 + (m - 0xdc00)), rest2)
            else none
          | _, _, _, _ => none
        | _ => none
      else if n ≤ 0xdfff then none
      else some (Char.ofNat n, rest)
    | _, _, _, _ => none
  | '"' :: rest => some ('"', rest)
  | '\\' :: rest => some ('\\', rest)
  | '/' :: rest => some ('/', rest)
  | 'b' :: rest => some (Char.ofNat 8, rest)
  | 'f' :: rest => some (Char.ofNat 12, rest)
  | 'n' :: rest => some ('\n', rest)
  | 'r' :: rest => some (Char.ofNat 13, rest)
  | 't' :: rest => some ('\t', rest)
  | _ => none

/-- The character-reading loop of a JSON string body (after the opening
quote, strict mode): plain characters up to the closing quote, backslash
escapes via `readEsc`; raw control characters are rejected.  The fuel
argument (instantiated with the input length plus one, an upper bound on
the number of decoded characters) makes the recursion structural, so the
function evaluates inside the kernel. -/
def parseCharsFuel : Nat → List Char → Option (List Char × List Char)
  | 0, _ => none
  | fuel + 1, l =>
    match l with
    | [] => none
    | c :: rest =>
      if c = '"' then some ([], rest)
      else if c = '\\' then
        match readEsc rest with
        | none => none
        | some (e, rest2) =>
          match parseCharsFuel fuel rest2 with
          | none => none
          | some (s, r) => some (e :: s, r)
      else if 0x20 ≤ c.toNat then
        match parseCharsFuel fuel rest with
        | none => none
        | some (s, r) => some (c :: s, r)
      else none

/-- A JSON string literal: an opening quote followed by the body. -/
def parseJString : List Char → Option (List Char × List Char)
  | '"' :: rest => parseCharsFuel (rest.length + 1) rest
  | _ => none

/-- JSON insignificant whitespace. -/
def skipWs (l : List Char) : List Char :=
  l.dropWhile fun c => c = ' ' || c = '\t' || c = '\n' || c = '\r'

/-- The object-member loop of `json.loads` restricted to string values (the
only shape this program produces): `"key" : "value"` pairs separated by
commas, closed by `}`.  The fuel argument (instantiated with the input
length plus one, an upper bound on the member count) makes the recursion
structural. -/
def parseMembersFuel : Nat → List Char → Option (CredDict × List Char)
  | 0, _ => none
  | fuel + 1, l =>
    match parseJString l with
    | none => none
    | some (k, r1) =>
      match skipWs r1 with
      | ':' :: r2 =>
        match parseJString (skipWs r2) with
        | none => none
        | some (v, r3) =>
          match skipWs r3 with
          | ',' :: r4 =>
            match parseMembersFuel fuel (skipWs r4) with
            | none => none
            | some (d, r) => some ((String.mk k, String.mk v) :: d, r)
          | '}' :: r4 => some ([(String.mk k, String.mk v)], r4)
          | _ => none
      | _ => none

/-- `json.loads` restricted to string-to-string objects: whitespace, `{`,
members, `}`, trailing whitespace, end of input.  Any other document shape
is a parse failure (in the program, any such failure is absorbed into the
empty dict by `decrypt_data`). -/
def jsonLoads (l : List Char) : Option CredDict :=
  match skipWs l with
  | '{' :: rest =>
    match skipWs rest with
    | '}' :: r2 => if skipWs r2 = [] then some [] else none
    | r1 =>
      match parseMembersFuel (r1.length + 1) r1 with
      | none => none
      | some (d, r2) => if skipWs r2 = [] then some d else none
  | _ => none

/-- UTF-8 encoding of the (pure ASCII) `json.dumps` output. -/
def strToBytes (l : List Char) : List Nat :=
  l.map Char.toNat

/-- `bytes.decode('utf-8')` modelled on the ASCII range: non-ASCII bytes are
treated as a decode failure (in the program such a failure is absorbed into
the empty dict by `decrypt_data`). -/
def bytesToStr (b : List Nat) : Option (List Char) :=
  if b.all (· < 128) then some (b.map Char.ofNat) else none

/-- The Fernet cipher of the external `cryptography` library, modelled
abstractly: `enc` encrypts a byte list, `dec` decrypts and fails with
`InvalidToken` (`none`) on a corrupted blob or a wrong key.  Authenticated
encryption under one key is the hypothesis `∀ m, dec (enc m) = some m`. -/
structure Cipher where
  enc : List Nat → List Nat
  dec : List Nat → Option (List Nat)

/-- `encrypt_data` from `encryption_handler.py`:
`cipher_suite.encrypt(json.dumps(data).encode('utf-8'))`. -/
def encrypt_data (cipher : Cipher) (data : CredDict) : List Nat :=
  cipher.enc (strToBytes (jsonDumps data))

/-- `decrypt_data` from `encryption_handler.py`:
`json.loads(cipher_suite.decrypt(encrypted_data).decode('utf-8'))`, with
every failure path (`InvalidToken`, decode error, JSON error) caught and
turned into the empty dict. -/
def decrypt_data (cipher : Cipher) (encrypted_data : List Nat) : CredDict :=
  match cipher.dec encrypted_data with
  | none => []
  | some bs =>
    match bytesToStr bs with
    | none => []
    | some chars =>
      match jsonLoads chars with
      | none => []
      | some d => d

theorem hexVal_hexDigitChar {k : Nat} (h : k < 16) : hexVal (hexDigitChar k) = some k := by
  interval_cases k <;> decide

theorem toHex4_reassemble {n : Nat} (h : n < 65536) :
    n / 4096 % 16 * 4096 + n / 256 % 16 * 256 + n / 16 % 16 * 16 + n % 16 = n := by
  omega

set_option maxHeartbeats 2000000 in
theorem readEsc_uHexLow (n : Nat) (rest : List Char) (h : n < 0xd800) :
    readEsc ('u' :: (toHex4 n ++ rest)) = some (Char.ofNat n, rest) := by
  simp only [toHex4, List.cons_append, List.nil_append, readEsc,
    hexVal_hexDigitChar (Nat.mod_lt _ (by norm_num) : n / 4096 % 16 < 16),
    hexVal_hexDigitChar (Nat.mod_lt _ (by norm_num) : n / 256 % 16 < 16),
    hexVal_hexDigitChar (Nat.mod_lt _ (by norm_num) : n / 16 % 16 < 16),
    hexVal_hexDigitChar (Nat.mod_lt _ (by norm_num) : n % 16 < 16),
    toHex4_reassemble (by omega : n < 65536)]
  rw [if_pos h]

set_option maxHeartbeats 2000000 in
theorem readEsc_uHexHigh (n : Nat) (rest : List Char) (h1 : 0xdfff < n) (h2 : n < 0x10000) :
    readEsc ('u' :: (toHex4 n ++ rest)) = some (Char.ofNat n, rest) := by
  simp only [toHex4, List.cons_append, List.nil_append, readEsc,
    hexVal_hexDigitChar (Nat.mod_lt _ (by norm_num) : n / 4096 % 16 < 16),
    hexVal_hexDigitChar (Nat.mod_lt _ (by norm_num) : n / 256 % 16 < 16),
    hexVal_hexDigitChar (Nat.mod_lt _ (by norm_num) : n / 16 % 16 < 16),
    hexVal_hexDigitChar (Nat.mod_lt _ (by norm_num) : n % 16 < 16),
    toHex4_reassemble h2]
  rw [if_neg (by omega), if_neg (by omega), if_neg (by omega)]

set_option maxHeartbeats 2000000 in
theorem readEsc_surrogate (n : Nat) (rest : List Char) (h1 : 0x10000 ≤ n)
    (h2 : n < 0x110000) :
    readEsc ('u' :: (toHex4 (0xd800 + (n - 0x10000) / 0x400) ++
        ('\\' :: ('u' :: (toHex4 (0xdc00 + (n - 0x10000) % 0x400) ++ rest)))))
      = some (Char.ofNat n, rest) := by
  have hhi : 0xd800 + (n - 0x10000) / 0x400 < 65536 := by omega
  have hlo : 0xdc00 + (n - 0x10000) % 0x400 < 65536 := by
    have := Nat.mod_lt (n - 0x10000) (show 0 < 0x400 by norm_num)
    omega
  simp only [toHex4, List.cons_append, List.nil_append, readEsc,
    hexVal_hexDigitChar (Nat.mod_lt _ (by norm_num)),
    toHex4_reassemble hhi, toHex4_reassemble hlo]
  rw [if_neg (by omega), if_pos (by omega : 0xd800 + (n - 0x10000) / 0x400 ≤ 0xdbff)]
  have hm : 0xdc00 ≤ 0xdc00 + (n - 0x10000) % 0x400 ∧
      0xdc00 + (n - 0x10000) % 0x400 ≤ 0xdfff := by
    have := Nat.mod_lt (n - 0x10000) (show 0 < 0x400 by norm_num)
    omega
  rw [if_pos hm]
  have harith : 0x10000 + (0xd800 + (n - 0x10000) / 0x400 - 0xd800) * 0x400 +
      (0xdc00 + (n - 0x10000) % 0x400 - 0xdc00) = n := by omega
  rw [harith]

theorem readEsc_quote (r : List Char) : readEsc ('"' :: r) = some ('"', r) := rfl

theorem readEsc_backslash (r : List Char) : readEsc ('\\' :: r) = some ('\\', r) := rfl

theorem readEsc_b (r : List Char) : readEsc ('b' :: r) = some (Char.ofNat 8, r) := rfl

theorem readEsc_t (r : List Char) : readEsc ('t' :: r) = some (Char.ofNat 9, r) := rfl

theorem readEsc_n (r : List Char) : readEsc ('n' :: r) = some (Char.ofNat 10, r) := rfl

theorem readEsc_f (r : List Char) : readEsc ('f' :: r) = some (Char.ofNat 12, r) := rfl

theorem readEsc_r (r : List Char) : readEsc ('r' :: r) = some (Char.ofNat 13, r) := rfl

theorem parseCharsFuel_esc_step (f : Nat) (e : Char) (r rest2 s t : List Char)
    (hre : readEsc r = some (e, rest2)) (hrec : parseCharsFuel f rest2 = some (s, t)) :
    parseCharsFuel (f + 1) ('\\' :: r) = some (e :: s, t) := by
  simp [parseCharsFuel, hre, hrec]

theorem parseCharsFuel_raw_step (f : Nat) (c : Char) (r s t : List Char)
    (h1 : ¬c = '"') (h2 : ¬c = '\\') (h3 : 0x20 ≤ c.toNat)
    (hrec : parseCharsFuel f r = some (s, t)) :
    parseCharsFuel (f + 1) (c :: r) = some (c :: s, t) := by
  simp [parseCharsFuel, h1, h2, h3, hrec]

/-- Reading back an escaped string body: the escaping of `s` followed by the
closing quote and arbitrary trailing input parses to exactly `s`. -/
theorem parseCharsFuel_escape (s t : List Char) :
    ∀ fuel, s.length < fuel →
      parseCharsFuel fuel ((s.map escChar).flatten ++ '"' :: t) = some (s, t) := by
  induction s with
  | nil =>
    intro fuel hf
    cases fuel with
    | zero => omega
    | succ f => simp [parseCharsFuel]
  | cons c cs ih =>
    intro fuel hf
    cases fuel with
    | zero => omega
    | succ f =>
      have hlen : cs.length < f := by
        simp only [List.length_cons] at hf
        omega
      have hrec := ih f hlen
      have hofn := Char.ofNat_toNat c
      have hvalid : c.toNat < 0xd800 ∨ (0xdfff < c.toNat ∧ c.toNat < 0x110000) := c.valid
      simp only [List.map_cons, List.flatten_cons, List.append_assoc]
      by_cases h1 : c = '"'
      · subst h1
        rw [show escChar '"' = ['\\', '"'] from rfl]
        simp only [List.cons_append, List.nil_append]
        exact parseCharsFuel_esc_step f _ _ _ cs t (readEsc_quote _) hrec
      · by_cases h2 : c = '\\'
        · subst h2
          rw [show escChar '\\' = ['\\', '\\'] from rfl]
          simp only [List.cons_append, List.nil_append]
          exact parseCharsFuel_esc_step f _ _ _ cs t (readEsc_backslash _) hrec
        · by_cases h3 : c.toNat = 8
          · rw [show escChar c = ['\\', 'b'] by simp [escChar, h1, h2, h3]]
            simp only [List.cons_append, List.nil_append]
            rw [parseCharsFuel_esc_step f _ _ _ cs t (readEsc_b _) hrec, ← h3, hofn]
          · by_cases h4 : c.toNat = 9
            · rw [show escChar c = ['\\', 't'] by simp [escChar, h1, h2, h3, h4]]
              simp only [List.cons_append, List.nil_append]
              rw [parseCharsFuel_esc_step f _ _ _ cs t (readEsc_t _) hrec, ← h4, hofn]
            · by_cases h5 : c.toNat = 10
              · rw [show escChar c = ['\\', 'n'] by simp [escChar, h1, h2, h3, h4, h5]]
                simp only [List.cons_append, List.nil_append]
                rw [parseCharsFuel_esc_step f _ _ _ cs t (readEsc_n _) hrec, ← h5, hofn]
              · by_cases h6 : c.toNat = 12
                · rw [show escChar c = ['\\', 'f'] by simp [escChar, h1, h2, h3, h4, h5, h6]]
                  simp only [List.cons_append, List.nil_append]
                  rw [parseCharsFuel_esc_step f _ _ _ cs t (readEsc_f _) hrec, ← h6, hofn]
                · by_cases h7 : c.toNat = 13
                  · rw [show escChar c = ['\\', 'r'] by simp [escChar, h1, h2, h3, h4, h5, h6, h7]]
                    simp only [List.cons_append, List.nil_append]
                    rw [parseCharsFuel_esc_step f _ _ _ cs t (readEsc_r _) hrec, ← h7, hofn]
                  · by_cases h8 : c.toNat < 0x20
                    · rw [show escChar c = '\\' :: 'u' :: toHex4 c.toNat by
                        simp [escChar, h1, h2, h3, h4, h5, h6, h7, h8]]
                      simp only [List.cons_append, List.nil_append]
                      rw [parseCharsFuel_esc_step f _ _ _ cs t
                        (readEsc_uHexLow c.toNat _ (by omega)) hrec, hofn]
                    · by_cases h9 : c.toNat ≤ 0x7e
                      · rw [show escChar c = [c] by
                          simp [escChar, h1, h2, h3, h4, h5, h6, h7, h8, h9]]
                        simp only [List.cons_append, List.nil_append]
                        exact parseCharsFuel_raw_step f c _ cs t h1 h2 (by omega) hrec
                      · by_cases h10 : c.toNat < 0x10000
                        · rw [show escChar c = '\\' :: 'u' :: toHex4 c.toNat by
                            simp [escChar, h1, h2, h3, h4, h5, h6, h7, h8, h9, h10]]
                          simp only [List.cons_append, List.nil_append]
                          rcases hvalid with hv | ⟨hv, _⟩
                          · rw [parseCharsFuel_esc_step f _ _ _ cs t
                              (readEsc_uHexLow c.toNat _ hv) hrec, hofn]
                          · rw [parseCharsFuel_esc_step f _ _ _ cs t
                              (readEsc_uHexHigh c.toNat _ hv h10) hrec, hofn]
                        · have hu : c.toNat < 0x110000 := by
                            rcases hvalid with hv | ⟨_, hv⟩ <;> omega
                          rw [show escChar c = '\\' :: 'u' ::
                              toHex4 (0xd800 + (c.toNat - 0x10000) / 0x400) ++
                                '\\' :: 'u' :: toHex4 (0xdc00 + (c.toNat - 0x10000) % 0x400) by
                            simp [escChar, h1, h2, h3, h4, h5, h6, h7, h8, h9, h10]]
                          simp only [List.cons_append, List.nil_append, List.append_assoc]
                          rw [parseCharsFuel_esc_step f _ _ _ cs t
                            (readEsc_surrogate c.toNat _ (by omega) hu) hrec, hofn]

theorem mk_data (s : String) : String.mk s.data = s := by
  cases s
  rfl

theorem escChar_length_pos (c : Char) : 1 ≤ (escChar c).length := by
  unfold escChar
  repeat' split
  all_goals simp [toHex4]

theorem length_le_flatten_escChar (s : List Char) :
    s.length ≤ ((s.map escChar).flatten).length := by
  induction s with
  | nil => simp
  | cons c cs ih =>
    have := escChar_length_pos c
    simp only [List.map_cons, List.flatten_cons, List.length_append, List.length_cons]
    omega

theorem escString_cons_form (s : String) (t : List Char) :
    escString s ++ t = '"' :: ((s.data.map escChar).flatten ++ '"' :: t) := by
  simp [escString]

theorem parseJString_escString (s : String) (t : List Char) :
    parseJString (escString s ++ t) = some (s.data, t) := by
  rw [escString_cons_form]
  have hlen : s.data.length < ((s.data.map escChar).flatten ++ '"' :: t).length + 1 := by
    have := length_le_flatten_escChar s.data
    simp only [List.length_append, List.length_cons]
    omega
  simpa [parseJString] using parseCharsFuel_escape s.data t _ hlen

theorem skipWs_quote (l : List Char) : skipWs ('"' :: l) = '"' :: l := rfl

theorem skipWs_colon (l : List Char) : skipWs (':' :: l) = ':' :: l := rfl

theorem skipWs_comma (l : List Char) : skipWs (',' :: l) = ',' :: l := rfl

theorem skipWs_rbrace (l : List Char) : skipWs ('}' :: l) = '}' :: l := rfl

theorem skipWs_lbrace (l : List Char) : skipWs ('{' :: l) = '{' :: l := rfl

theorem skipWs_space (l : List Char) : skipWs (' ' :: l) = skipWs l := rfl

theorem skipWs_escString_append (s : String) (t : List Char) :
    skipWs (escString s ++ t) = escString s ++ t := by
  rw [escString_cons_form]
  exact skipWs_quote _

theorem skipWs_memberChars_append (kv : String × String) (t : List Char) :
    skipWs (memberChars kv ++ t) = memberChars kv ++ t := by
  rw [show memberChars kv ++ t
      = escString kv.1 ++ (':' :: ' ' :: (escString kv.2 ++ t)) from by
    simp [memberChars]]
  exact skipWs_escString_append _ _

theorem skipWs_joinSep_members (d : CredDict) (t : List Char) (hne : d ≠ []) :
    skipWs (joinSep [',', ' '] (d.map memberChars) ++ t)
      = joinSep [',', ' '] (d.map memberChars) ++ t := by
  cases d with
  | nil => exact absurd rfl hne
  | cons kv d' =>
    cases d' with
    | nil =>
      rw [show joinSep [',', ' '] ([kv].map memberChars) = memberChars kv from by
        simp [joinSep]]
      exact skipWs_memberChars_append _ _
    | cons kv2 d'' =>
      rw [show joinSep [',', ' '] ((kv :: kv2 :: d'').map memberChars)
          = memberChars kv ++ ([',', ' '] ++
              joinSep [',', ' '] ((kv2 :: d'').map memberChars)) from by
        simp [joinSep]]
      rw [List.append_assoc]
      exact skipWs_memberChars_append _ _

/-- Reading back the serialized members: the `", "`-joined `"k": "v"` list
followed by `}` parses to exactly the original association list. -/
theorem parseMembersFuel_members (d : CredDict) :
    ∀ (rest : List Char), d ≠ [] → ∀ fuel, d.length ≤ fuel →
      parseMembersFuel fuel (joinSep [',', ' '] (d.map memberChars) ++ '}' :: rest)
        = some (d, rest) := by
  induction d with
  | nil =>
    intro rest h
    exact absurd rfl h
  | cons kv d' ih =>
    intro rest _ fuel hfuel
    cases fuel with
    | zero => simp at hfuel
    | succ f =>
      cases d' with
      | nil =>
        rw [show joinSep [',', ' '] ([kv].map memberChars) ++ '}' :: rest
            = escString kv.1 ++ (':' :: ' ' :: (escString kv.2 ++ '}' :: rest)) from by
          simp [joinSep, memberChars]]
        simp only [parseMembersFuel, parseJString_escString, skipWs_colon, skipWs_space,
          skipWs_escString_append, skipWs_rbrace, mk_data]
      | cons kv2 d'' =>
        rw [show joinSep [',', ' '] ((kv :: kv2 :: d'').map memberChars) ++ '}' :: rest
            = escString kv.1 ++ (':' :: ' ' :: (escString kv.2 ++ ',' :: ' ' ::
                (joinSep [',', ' '] ((kv2 :: d'').map memberChars) ++ '}' :: rest))) from by
          simp [joinSep, memberChars]]
        have hrec := ih rest (by simp) f (by
          simp only [List.length_cons] at hfuel ⊢
          omega)
        simp only [parseMembersFuel, parseJString_escString, skipWs_colon, skipWs_space,
          skipWs_escString_append, skipWs_comma,
          skipWs_joinSep_members (kv2 :: d'') ('}' :: rest) (by simp), hrec, mk_data]

theorem memberChars_length_pos (kv : String × String) : 1 ≤ (memberChars kv).length := by
  simp [memberChars, escString]

theorem length_le_joinSep_members (d : CredDict) :
    d.length ≤ (joinSep [',', ' '] (d.map memberChars)).length := by
  induction d with
  | nil => simp [joinSep]
  | cons kv d' ih =>
    cases d' with
    | nil => simpa [joinSep] using memberChars_length_pos kv
    | cons kv2 d'' =>
      have h1 := memberChars_length_pos kv
      rw [show joinSep [',', ' '] ((kv :: kv2 :: d'').map memberChars)
          = memberChars kv ++ ([',', ' '] ++
              joinSep [',', ' '] ((kv2 :: d'').map memberChars)) from by
        simp [joinSep]]
      simp only [List.length_cons, List.length_append] at ih ⊢
      omega

/-- `json.loads` inverts `json.dumps` on every credential dict. -/
theorem jsonLoads_jsonDumps (d : CredDict) : jsonLoads (jsonDumps d) = some d := by
  cases d with
  | nil => decide
  | cons kv d' =>
    rw [show jsonDumps (kv :: d')
        = '{' :: (joinSep [',', ' '] ((kv :: d').map memberChars) ++ '}' :: []) from by
      simp [jsonDumps]]
    simp only [jsonLoads, skipWs_lbrace]
    rw [skipWs_joinSep_members (kv :: d') ('}' :: []) (by simp)]
    have hfuel : (kv :: d').length
        ≤ (joinSep [',', ' '] ((kv :: d').map memberChars) ++ '}' :: []).length + 1 := by
      have h0 := length_le_joinSep_members (kv :: d')
      simp only [List.length_append, List.length_cons] at h0 ⊢
      omega
    have hmem := parseMembersFuel_members (kv :: d') [] (by simp) _ hfuel
    -- the scrutinee `skipWs rest` is not of the `'}' :: _` shape: the members
    -- string starts with the first key's opening quote
    rw [show joinSep [',', ' '] ((kv :: d').map memberChars) ++ '}' :: []
        = memberChars kv ++ ((if d' = [] then [] else ',' :: ' ' ::
            joinSep [',', ' '] (d'.map memberChars)) ++ '}' :: []) from by
      cases d' with
      | nil => simp [joinSep]
      | cons kv2 d'' => simp [joinSep]] at hmem ⊢
    rw [show memberChars kv ++ ((if d' = [] then [] else ',' :: ' ' ::
          joinSep [',', ' '] (d'.map memberChars)) ++ '}' :: [])
        = escString kv.1 ++ (':' :: ' ' :: (escString kv.2 ++
            ((if d' = [] then [] else ',' :: ' ' ::
              joinSep [',', ' '] (d'.map memberChars)) ++ '}' :: []))) from by
      simp [memberChars]] at hmem ⊢
    rw [escString_cons_form] at hmem ⊢
    split
    · rename_i heq
      simp at heq
    · rw [hmem]
      simp [skipWs]

example : jsonLoads (jsonDumps [("username", "u"), ("password", "p")])
    = some [("username", "u"), ("password", "p")] := by decide
example : jsonLoads (jsonDumps []) = some [] := by decide

theorem hexDigitChar_ascii {k : Nat} (h : k < 16) : (hexDigitChar k).toNat < 128 := by
  interval_cases k <;> decide

theorem toHex4_ascii (n : Nat) : ∀ x ∈ toHex4 n, x.toNat < 128 := by
  intro x hx
  simp only [toHex4, List.mem_cons, List.not_mem_nil, or_false] at hx
  rcases hx with rfl | rfl | rfl | rfl <;>
    exact hexDigitChar_ascii (Nat.mod_lt _ (by norm_num))

theorem escChar_ascii (c : Char) : ∀ x ∈ escChar c, x.toNat < 128 := by
  by_cases h1 : c = '"'
  · rw [show escChar c = ['\\', '"'] from by simp [escChar, h1]]
    decide
  · by_cases h2 : c = '\\'
    · rw [show escChar c = ['\\', '\\'] from by simp [escChar, h1, h2]]
      decide
    · by_cases h3 : c.toNat = 8
      · rw [show escChar c = ['\\', 'b'] from by simp [escChar, h1, h2, h3]]
        decide
      · by_cases h4 : c.toNat = 9
        · rw [show escChar c = ['\\', 't'] from by simp [escChar, h1, h2, h3, h4]]
          decide
        · by_cases h5 : c.toNat = 10
          · rw [show escChar c = ['\\', 'n'] from by simp [escChar, h1, h2, h3, h4, h5]]
            decide
          · by_cases h6 : c.toNat = 12
            · rw [show escChar c = ['\\', 'f'] from by simp [escChar, h1, h2, h3, h4, h5, h6]]
              decide
            · by_cases h7 : c.toNat = 13
              · rw [show escChar c = ['\\', 'r'] from by
                  simp [escChar, h1, h2, h3, h4, h5, h6, h7]]
                decide
              · by_cases h8 : c.toNat < 0x20
                · rw [show escChar c = '\\' :: 'u' :: toHex4 c.toNat from by
                    simp [escChar, h1, h2, h3, h4, h5, h6, h7, h8]]
                  intro x hx
                  rcases List.mem_cons.mp hx with rfl | hx
                  · decide
                  rcases List.mem_cons.mp hx with rfl | hx
                  · decide
                  exact toHex4_ascii _ x hx
                · by_cases h9 : c.toNat ≤ 0x7e
                  · rw [show escChar c = [c] from by
                      simp [escChar, h1, h2, h3, h4, h5, h6, h7, h8, h9]]
                    intro x hx
                    rcases List.mem_cons.mp hx with rfl | hx
                    · omega
                    · simp at hx
                  · by_cases h10 : c.toNat < 0x10000
                    · rw [show escChar c = '\\' :: 'u' :: toHex4 c.toNat from by
                        simp [escChar, h1, h2, h3, h4, h5, h6, h7, h8, h9, h10]]
                      intro x hx
                      rcases List.mem_cons.mp hx with rfl | hx
                      · decide
                      rcases List.mem_cons.mp hx with rfl | hx
                      · decide
                      exact toHex4_ascii _ x hx
                    · rw [show escChar c = '\\' :: 'u' ::
                          (toHex4 (0xd800 + (c.toNat - 0x10000) / 0x400) ++
                            '\\' :: 'u' :: toHex4 (0xdc00 + (c.toNat - 0x10000) % 0x400)) from by
                        simp [escChar, h1, h2, h3, h4, h5, h6, h7, h8, h9, h10]]
                      intro x hx
                      rcases List.mem_cons.mp hx with rfl | hx
                      · decide
                      rcases List.mem_cons.mp hx with rfl | hx
                      · decide
                      rcases List.mem_append.mp hx with hx | hx
                      · exact toHex4_ascii _ x hx
                      rcases List.mem_cons.mp hx with rfl | hx
                      · decide
                      rcases List.mem_cons.mp hx with rfl | hx
                      · decide
                      exact toHex4_ascii _ x hx

theorem escString_ascii (s : String) : ∀ x ∈ escString s, x.toNat < 128 := by
  intro x hx
  unfold escString at hx
  rcases List.mem_cons.mp hx with rfl | hx
  · decide
  rcases List.mem_append.mp hx with hx | hx
  · obtain ⟨l, hl, hxl⟩ := List.mem_flatten.mp hx
    obtain ⟨c, _, rfl⟩ := List.mem_map.mp hl
    exact escChar_ascii c x hxl
  · rcases List.mem_cons.mp hx with rfl | hx
    · decide
    · simp at hx

theorem memberChars_ascii (kv : String × String) : ∀ x ∈ memberChars kv, x.toNat < 128 := by
  intro x hx
  unfold memberChars at hx
  rcases List.mem_append.mp hx with hx | hx
  · exact escString_ascii _ x hx
  rcases List.mem_cons.mp hx with rfl | hx
  · decide
  rcases List.mem_cons.mp hx with rfl | hx
  · decide
  exact escString_ascii _ x hx

theorem joinSep_members_ascii (d : CredDict) :
    ∀ x ∈ joinSep [',', ' '] (d.map memberChars), x.toNat < 128 := by
  induction d with
  | nil => simp [joinSep]
  | cons kv d' ih =>
    intro x hx
    cases d' with
    | nil =>
      rw [show joinSep [',', ' '] ([kv].map memberChars) = memberChars kv from by
        simp [joinSep]] at hx
      exact memberChars_ascii kv x hx
    | cons kv2 d'' =>
      rw [show joinSep [',', ' '] ((kv :: kv2 :: d'').map memberChars)
          = memberChars kv ++ ([',', ' '] ++
              joinSep [',', ' '] ((kv2 :: d'').map memberChars)) from by
        simp [joinSep]] at hx
      rcases List.mem_append.mp hx with hx | hx
      · exact memberChars_ascii kv x hx
      rcases List.mem_append.mp hx with hx | hx
      · rcases List.mem_cons.mp hx with rfl | hx
        · decide
        rcases List.mem_cons.mp hx with rfl | hx
        · decide
        · simp at hx
      · exact ih x hx

theorem jsonDumps_ascii (d : CredDict) : ∀ x ∈ jsonDumps d, x.toNat < 128 := by
  intro x hx
  unfold jsonDumps at hx
  rcases List.mem_cons.mp hx with rfl | hx
  · decide
  rcases List.mem_append.mp hx with hx | hx
  · exact joinSep_members_ascii d x hx
  rcases List.mem_cons.mp hx with rfl | hx
  · decide
  · simp at hx

theorem bytesToStr_strToBytes (l : List Char) (h : ∀ x ∈ l, x.toNat < 128) :
    bytesToStr (strToBytes l) = some l := by
  unfold bytesToStr strToBytes
  rw [if_pos]
  · congr 1
    rw [List.map_map]
    have he : ∀ c ∈ l, (Char.ofNat ∘ Char.toNat) c = id c := fun c _ => Char.ofNat_toNat c
    rw [List.map_congr_left he, List.map_id]
  · refine List.all_eq_true.mpr ?_
    intro b hb
    obtain ⟨c, hc, rfl⟩ := List.mem_map.mp hb
    simpa using h c hc

/-- **C7** (confirmed).  Secret Codec round trip under one key: with the
Fernet cipher modelled abstractly (decryption under the same key inverts
encryption), `decrypt_data (encrypt_data x) = x` both for the empty dict and
for `{"username": u, "password": p}` with arbitrary string values. -/
theorem claim_C7 (cipher : Cipher) (u p : String)
    (hkey : ∀ m, cipher.dec (cipher.enc m) = some m) :
    decrypt_data cipher (encrypt_data cipher []) = [] ∧
      decrypt_data cipher (encrypt_data cipher [("username", u), ("password", p)])
        = [("username", u), ("password", p)] := by
  constructor
  · have hb := bytesToStr_strToBytes (jsonDumps []) (jsonDumps_ascii [])
    simp only [decrypt_data, encrypt_data, hkey, hb, jsonLoads_jsonDumps]
  · have hb := bytesToStr_strToBytes (jsonDumps [("username", u), ("password", p)])
      (jsonDumps_ascii [("username", u), ("password", p)])
    simp only [decrypt_data, encrypt_data, hkey, hb, jsonLoads_jsonDumps]

/-- **C7** witness: the round trip at a concrete cipher satisfying the
same-key hypothesis and concrete credential strings. -/
theorem claim_C7_witness :
    decrypt_data ⟨fun m => m, fun m => some m⟩
        (encrypt_data ⟨fun m => m, fun m => some m⟩ [("username", "u"), ("password", "p")])
      = [("username", "u"), ("password", "p")] ∧
    decrypt_data ⟨fun m => m, fun m => some m⟩
        (encrypt_data ⟨fun m => m, fun m => some m⟩ []) = [] := by
  have h := claim_C7 ⟨fun m => m, fun m => some m⟩ "u" "p" (fun m => rfl)
  exact ⟨h.2, h.1⟩

/-- A concrete cipher for counterexamples: encryption prepends a `0` marker
byte, decryption strips it and rejects any blob not starting with `0`
(modelling `InvalidToken` on corrupted input). -/
def testCipher : Cipher :=
  ⟨fun b => 0 :: b, fun b =>
    match b with
    | 0 :: bs => some bs
    | _ => none⟩

/-- **C8** (corrected).  `decrypt_data` returns the empty dict `{}` on every
failure path — cipher rejection (`InvalidToken`: corrupted blob or wrong
key), byte-decode failure, or JSON parse failure — and never raises (it is
a total function into plain dicts).  But it does *not* additionally signal
a decode-failure condition to the caller: its return type carries no such
signal, and under the same key the legitimately-empty secret decrypts to
the very same value `{}`. -/
theorem claim_C8_amended (cipher : Cipher) (b : List Nat) :
    (cipher.dec b = none → decrypt_data cipher b = []) ∧
    (∀ bs, cipher.dec b = some bs → bytesToStr bs = none → decrypt_data cipher b = []) ∧
    (∀ bs chars, cipher.dec b = some bs → bytesToStr bs = some chars →
      jsonLoads chars = none → decrypt_data cipher b = []) ∧
    ((∀ m, cipher.dec (cipher.enc m) = some m) →
      decrypt_data cipher (encrypt_data cipher []) = []) := by
  refine ⟨?_, ?_, ?_, ?_⟩
  · intro h
    simp [decrypt_data, h]
  · intro bs h1 h2
    simp [decrypt_data, h1, h2]
  · intro bs chars h1 h2 h3
    simp [decrypt_data, h1, h2, h3]
  · intro hkey
    exact (claim_C7 cipher "" "" hkey).1

/-- **C8** counterexample to the claim as stated: with a concrete cipher,
a corrupted blob decrypts to `{}` and the legitimate encryption of the
empty dict under the same key also decrypts to `{}` — the two outcomes are
equal, so no decode-failure condition distinguishable by the caller is
signalled. -/
theorem claim_C8_counterexample :
    decrypt_data testCipher [1] = [] ∧
    decrypt_data testCipher (encrypt_data testCipher []) = [] ∧
    decrypt_data testCipher [1] = decrypt_data testCipher (encrypt_data testCipher []) := by
  decide

/-- **C8** witness: the amended theorem applied at the concrete test cipher
and a concrete corrupted blob. -/
theorem claim_C8_witness : decrypt_data testCipher [1] = [] :=
  (claim_C8_amended testCipher [1]).1 (by decide)

/-! ## Shared state, login orchestration and handlers

`shared_state.py` holds `instagrapi_client : Client | None` and
`ig_credentials : dict`.  `instagram_handler.py` and the handler modules
mutate them.  The remote service (Instagrapi) is modelled by passing each
handler the outcome its remote calls would produce: a successful login
yields an opaque handle (a `Nat`), a failed one raises one of the modelled
exceptions.  Replies sent over Telegram are recorded as an append-only list
of tagged events, one constructor per distinct source message. -/

/-- Python `dict.get(k)`. -/
def dget (d : CredDict) (k : String) : Option String :=
  match d with
  | [] => none
  | (k2, v) :: rest => if k2 = k then some v else dget rest k

/-- Python `d[k] = v`: replace in place if the key exists, else append. -/
def dset (d : CredDict) (k v : String) : CredDict :=
  match d with
  | [] => [(k, v)]
  | (k2, v2) :: rest => if k2 = k then (k, v) :: rest else (k2, v2) :: dset rest k v

/-- Python truthiness of `d.get(k)`: `None` and `""` are falsy. -/
def truthyOpt : Option String → Bool
  | none => false
  | some s => s ≠ ""

/-- The Instagrapi exceptions visible to this program
(`instagrapi.exceptions` imports in `instagram_handler.py`), plus a
catch-all for any other exception. -/
inductive IgExc
  | userNotFound
  | feedbackRequired (txt : String)
  | loginRequired
  | badPassword
  | challengeRequired
  | sentryBlock
  | proxyAddressIsBlocked
  | clientForbiddenError
  | otherError (txt : String)
  deriving DecidableEq

/-- `CRITICAL_INSTAGRAM_EXCEPTIONS` from `config.py`. -/
def isCriticalException : IgExc → Bool
  | .loginRequired => true
  | .badPassword => true
  | .challengeRequired => true
  | .sentryBlock => true
  | .proxyAddressIsBlocked => true
  | .clientForbiddenError => true
  | _ => false

/-- The fields of the remote profile lookup that `check_livestream` uses. -/
structure IgUserInfo where
  pk : Nat
  is_private : Bool
  deriving DecidableEq

/-- The fields read from `response_data["broadcast"]` via `.get`, which may
be absent. -/
structure IgBroadcast where
  id : Option String
  dash_playback_url : Option String
  deriving DecidableEq

/-- Outcomes of the three remote calls a live check can make
(`user_info_by_username`, `user_friendship_v1` — its `.following` field —
and the story `private_request`); `.error e` models the call raising `e`.
In `story_broadcast`, `none` models an absent *or falsy* (empty)
`"broadcast"` entry, matching the walrus-truthiness test in the source. -/
structure CheckEnv where
  user_info : Except IgExc IgUserInfo
  friendship_following : Except IgExc Bool
  story_broadcast : Except IgExc (Option IgBroadcast)

/-- Trace of remote calls performed during one check. -/
inductive RemoteCall
  | userInfoCall (username : String)
  | friendshipCall (pk : Nat)
  | storyCall (pk : Nat)
  deriving DecidableEq

/-- The distinct human-readable messages a check can produce (each
constructor stands for the corresponding f-string of the source). -/
inductive CheckMsg
  | userNotFoundMsg (username : String)
  | actionBlockedMsg (txt : String)
  | unexpectedErrorMsg (txt : String)
  | privateAccountMsg (username : String)
  deriving DecidableEq

/-- The `Check Result` dict shapes of `check_livestream`. -/
inductive CheckResult
  | success_live (broadcast_id : Option String) (mpd_url : Option String)
  | success_not_live
  | privateBlocked (msg : CheckMsg)
  | error (msg : CheckMsg)
  deriving DecidableEq

/-- The replies (and edits) the bot sends, one constructor per distinct
message of the source. -/
inductive Reply
  | actionDeniedLoggedIn
  | usernameSet (u : String)
  | passwordSet
  | bothCredsSetHint
  | setPasswordHint
  | setLoginHint
  | usageSetLogin
  | usageSetPassword
  | alreadyLoggedIn
  | cannotLoginNoCreds
  | credentialsFoundAttempting
  | loginSuccess
  | loginFailedKeepCreds (errType username maskedPassword : String)
  | loginFailedCredsCleared (errType : String)
  | challengeRequiredMsg
  | ipBlockedMsg
  | accountSuspendedMsg
  | unexpectedLoginError
  | nothingToLogout
  | loggedOut
  | statusLoggedIn
  | statusNotLoggedIn
  | botNotReady
  | checkingUser (username : Option String)
  | checkResultMsg (r : CheckResult)
  | criticalSessionReset
  deriving DecidableEq

/-- The process-wide shared state plus the two persisted files.
`session_file` records only existence (its contents are opaque to this
logic); `credentials_file` records the credential dict the file encrypts
(`encrypt_data`/`decrypt_data` are modelled at byte level above, and the
file-write mechanics in the `FsOp` model below). -/
structure AppState where
  instagrapi_client : Option Nat
  ig_credentials : CredDict
  session_file : Bool
  credentials_file : Option CredDict
  replies : List Reply
  deriving DecidableEq

/-- Send one reply (recorded append-only). -/
def addReply (r : Reply) (st : AppState) : AppState :=
  { st with replies := st.replies ++ [r] }

/-- `save_credentials` from `instagram_handler.py`: encrypt the current
in-memory dict and write it to the credentials file. -/
def save_credentials (st : AppState) : AppState :=
  { st with credentials_file := some st.ig_credentials }

/-- `mask_password` from `instagram_handler.py`: first and last characters
kept, the rest starred; short passwords fully starred. -/
def mask_password (password : String) : String :=
  if password.length > 2 then
    String.mk (password.data.take 1 ++ List.replicate (password.length - 2) '*' ++
      password.data.drop (password.length - 1))
  else
    String.mk (List.replicate password.length '*')

/-- The body of `attempt_login`'s `except (BadPassword, LoginRequired)`
block, with `error_type` already rendered.  Python condition:
`if manual_first_attempt and message`. -/
def handleBadPasswordOrLoginRequired (st : AppState) (hasMessage manual_first_attempt : Bool)
    (errType username password : String) : AppState :=
  if manual_first_attempt ∧ hasMessage then
    addReply (.loginFailedKeepCreds errType username (mask_password password)) st
  else
    let st := { st with session_file := false, credentials_file := none, ig_credentials := [] }
    if hasMessage then addReply (.loginFailedCredsCleared errType) st else st

/-- `attempt_login` from `instagram_handler.py`.  `outcome` is what the
offloaded `perform_instagram_login` call would produce: an authenticated
handle, or a raised exception.  On success `perform_instagram_login` has
also ensured a session file exists (it dumps one after a fresh login). -/
def attempt_login (st0 : AppState) (hasMessage manual_first_attempt : Bool)
    (outcome : Except IgExc Nat) : AppState :=
  let st := { st0 with instagrapi_client := none }
  let username := dget st.ig_credentials "username"
  let password := dget st.ig_credentials "password"
  if ¬(truthyOpt username = true ∧ truthyOpt password = true) then st
  else
    let st := if hasMessage then addReply .credentialsFoundAttempting st else st
    match outcome with
    | .ok handle =>
      let st := { st with instagrapi_client := some handle, session_file := true }
      if hasMessage then addReply .loginSuccess st else st
    | .error .badPassword =>
      handleBadPasswordOrLoginRequired st hasMessage manual_first_attempt
        "Invalid password" (username.getD "") (password.getD "")
    | .error .loginRequired =>
      handleBadPasswordOrLoginRequired st hasMessage manual_first_attempt
        "Session expired" (username.getD "") (password.getD "")
    | .error .challengeRequired =>
      if hasMessage then addReply .challengeRequiredMsg st else st
    | .error .sentryBlock =>
      if hasMessage then addReply .ipBlockedMsg st else st
    | .error .proxyAddressIsBlocked =>
      if hasMessage then addReply .ipBlockedMsg st else st
    | .error .clientForbiddenError =>
      if hasMessage then addReply .accountSuspendedMsg st else st
    | .error _ =>
      if hasMessage then addReply .unexpectedLoginError st else st

/-- `set_login_handler` from `insta_conf_commands.py`.  `arg` models
`message.text.split(" ", 1)[1].strip()`; `none` is the `IndexError` case
(no argument given). -/
def set_login_handler (st : AppState) (arg : Option String) : AppState :=
  if st.instagrapi_client ≠ none then
    addReply .actionDeniedLoggedIn st
  else
    match arg with
    | none => addReply .usageSetLogin st
    | some username =>
      let st := { st with ig_credentials := dset st.ig_credentials "username" username }
      let st := save_credentials st
      let st := addReply (.usernameSet username) st
      if truthyOpt (dget st.ig_credentials "password") then
        addReply .bothCredsSetHint st
      else
        addReply .setPasswordHint st

/-- `set_password_handler` from `insta_conf_commands.py` (it additionally
deletes the operator's message, which leaves the modelled state
untouched). -/
def set_password_handler (st : AppState) (arg : Option String) : AppState :=
  if st.instagrapi_client ≠ none then
    addReply .actionDeniedLoggedIn st
  else
    match arg with
    | none => addReply .usageSetPassword st
    | some password =>
      let st := { st with ig_credentials := dset st.ig_credentials "password" password }
      let st := save_credentials st
      let st := addReply .passwordSet st
      if truthyOpt (dget st.ig_credentials "username") then
        addReply .bothCredsSetHint st
      else
        addReply .setLoginHint st

/-- `login_command_handler` from `insta_conf_commands.py`: guards on an
existing client and on *presence* of both keys, then calls `attempt_login`
flagged as a manual first attempt. -/
def login_command_handler (st : AppState) (outcome : Except IgExc Nat) : AppState :=
  if st.instagrapi_client ≠ none then
    addReply .alreadyLoggedIn st
  else if (dget st.ig_credentials "username").isSome ∧
      (dget st.ig_credentials "password").isSome then
    attempt_login st true true outcome
  else
    addReply .cannotLoginNoCreds st

/-- `logout_command_handler` from `insta_conf_commands.py`. -/
def logout_command_handler (st : AppState) : AppState :=
  if st.instagrapi_client = none ∧ st.ig_credentials = [] then
    addReply .nothingToLogout st
  else
    addReply .loggedOut
      { st with
          instagrapi_client := none, ig_credentials := [],
          session_file := false, credentials_file := none }

/-- `status_command_handler` from `insta_conf_commands.py`. -/
def status_command_handler (st : AppState) : AppState :=
  if st.instagrapi_client ≠ none then addReply .statusLoggedIn st
  else addReply .statusNotLoggedIn st

/-- The `except` chain at the bottom of `check_livestream`'s single `try`
block: whatever exception escapes any of the three remote calls goes
through this classification.  `UserNotFound` and `FeedbackRequired` become
`error` results, the six critical exceptions are re-raised, anything else
becomes a generic `error` result. -/
def classify_check_exception (username : String) : IgExc → Except IgExc CheckResult
  | .userNotFound => .ok (.error (.userNotFoundMsg username))
  | .feedbackRequired txt => .ok (.error (.actionBlockedMsg txt))
  | .otherError txt => .ok (.error (.unexpectedErrorMsg txt))
  | e => .error e

/-- The body of `check_livestream` from `instagram_handler.py`, with the
remote-call outcomes supplied by `env` and the performed calls traced:
profile lookup; if private, friendship check with a `private-blocked`
short-circuit when not following; otherwise the story/broadcast lookup
keyed by the numeric `pk`. -/
def check_livestream_result (username : String) (env : CheckEnv) :
    Except IgExc CheckResult × List RemoteCall :=
  match env.user_info with
  | .error e => (classify_check_exception username e, [.userInfoCall username])
  | .ok user_info =>
    let story := fun (calls : List RemoteCall) =>
      match env.story_broadcast with
      | .error e =>
        (classify_check_exception username e, calls ++ [.storyCall user_info.pk])
      | .ok (some broadcast) =>
        (.ok (.success_live broadcast.id broadcast.dash_playback_url),
          calls ++ [.storyCall user_info.pk])
      | .ok none =>
        (.ok .success_not_live, calls ++ [.storyCall user_info.pk])
    if user_info.is_private then
      match env.friendship_following with
      | .error e =>
        (classify_check_exception username e,
          [.userInfoCall username, .friendshipCall user_info.pk])
      | .ok following =>
        if ¬following = true then
          (.ok (.privateBlocked (.privateAccountMsg username)),
            [.userInfoCall username, .friendshipCall user_info.pk])
        else
          story [.userInfoCall username, .friendshipCall user_info.pk]
    else
      story [.userInfoCall username]

/-- `check_livestream` with the shared application state threaded through:
no statement of the source function reads or writes the shared state or the
files, so the state passes through unchanged. -/
def check_livestream (st : AppState) (username : String) (env : CheckEnv) :
    (Except IgExc CheckResult × List RemoteCall) × AppState :=
  (check_livestream_result username env, st)

/-- Python's rendering of the possibly-`None` extracted username when it is
interpolated or passed on (the known §9 quirk: an invalid extraction is
not short-circuited). -/
def pyOptStr : Option String → String
  | some u => u
  | none => "None"

/-- `message_handler` from `text_message.py`: guard on the handle, extract
the username, run the check off-thread, render the result; on a critical
exception reset the handle, delete both files and clear the credentials. -/
def message_handler (st : AppState) (text : String) (env : CheckEnv) : AppState :=
  if st.instagrapi_client = none then
    addReply .botNotReady st
  else
    let username := extract_instagram_username text
    let st := addReply (.checkingUser username) st
    let result := check_livestream st (pyOptStr username) env
    match result.1.1 with
    | .ok r => addReply (.checkResultMsg r) result.2
    | .error _e =>
      addReply .criticalSessionReset
        { result.2 with
            instagrapi_client := none, session_file := false,
            credentials_file := none, ig_credentials := [] }

/-- The events the process reacts to: the five commands, the startup login
(`startup_login` calls `attempt_login` with no message and the default
`manual_first_attempt=False`), and a plain text message. -/
inductive BotEvent
  | setLoginCmd (arg : Option String)
  | setPasswordCmd (arg : Option String)
  | loginCmd (outcome : Except IgExc Nat)
  | logoutCmd
  | statusCmd
  | startupLogin (outcome : Except IgExc Nat)
  | textMessage (text : String) (env : CheckEnv)

/-- One handler invocation. -/
def step (st : AppState) : BotEvent → AppState
  | .setLoginCmd a => set_login_handler st a
  | .setPasswordCmd a => set_password_handler st a
  | .loginCmd o => login_command_handler st o
  | .logoutCmd => logout_command_handler st
  | .statusCmd => status_command_handler st
  | .startupLogin o => attempt_login st false false o
  | .textMessage text env => message_handler st text env

/-- Reachability: at process start the client is `None`
(`shared_state.py`), the credentials are whatever `load_credentials`
decrypted (or `{}`), and the files are in an arbitrary state; then any
sequence of handler invocations. -/
inductive Reachable : AppState → Prop
  | init (creds : CredDict) (sess : Bool) (credF : Option CredDict) :
      Reachable ⟨none, creds, sess, credF, []⟩
  | step {st : AppState} (e : BotEvent) : Reachable st → Reachable (step st e)

@[simp] theorem addReply_client (r : Reply) (st : AppState) :
    (addReply r st).instagrapi_client = st.instagrapi_client := rfl

@[simp] theorem addReply_creds (r : Reply) (st : AppState) :
    (addReply r st).ig_credentials = st.ig_credentials := rfl

@[simp] theorem addReply_session (r : Reply) (st : AppState) :
    (addReply r st).session_file = st.session_file := rfl

@[simp] theorem addReply_credFile (r : Reply) (st : AppState) :
    (addReply r st).credentials_file = st.credentials_file := rfl

@[simp] theorem addReply_replies (r : Reply) (st : AppState) :
    (addReply r st).replies = st.replies ++ [r] := rfl

/-- **C10** (confirmed).  While the bot is logged in (the handle is
non-`None`), `/setlogin` and `/setpassword` only reply that the action is
denied and `/logout` must be used first; the in-memory credentials and the
encrypted credentials file (and the session file) are completely
unchanged, for every possible argument. -/
theorem claim_C10 (st : AppState) (arg : Option String)
    (h : st.instagrapi_client ≠ none) :
    set_login_handler st arg = addReply .actionDeniedLoggedIn st ∧
    set_password_handler st arg = addReply .actionDeniedLoggedIn st ∧
    (set_login_handler st arg).ig_credentials = st.ig_credentials ∧
    (set_login_handler st arg).credentials_file = st.credentials_file ∧
    (set_login_handler st arg).session_file = st.session_file ∧
    (set_password_handler st arg).ig_credentials = st.ig_credentials ∧
    (set_password_handler st arg).credentials_file = st.credentials_file ∧
    (set_password_handler st arg).session_file = st.session_file := by
  have h1 : set_login_handler st arg = addReply .actionDeniedLoggedIn st := by
    simp [set_login_handler, h]
  have h2 : set_password_handler st arg = addReply .actionDeniedLoggedIn st := by
    simp [set_password_handler, h]
  refine ⟨h1, h2, ?_, ?_, ?_, ?_, ?_, ?_⟩ <;> simp [h1, h2]

/-- **C10** witness: a concrete logged-in state with credentials set. -/
theorem claim_C10_witness :
    (set_login_handler
        ⟨some 7, [("username", "alice"), ("password", "hunter2")], true,
          some [("username", "alice"), ("password", "hunter2")], []⟩
        (some "mallory")).ig_credentials
      = [("username", "alice"), ("password", "hunter2")] ∧
    (set_password_handler
        ⟨some 7, [("username", "alice"), ("password", "hunter2")], true,
          some [("username", "alice"), ("password", "hunter2")], []⟩
        (some "stolen")).credentials_file
      = some [("username", "alice"), ("password", "hunter2")] := by
  have h := claim_C10
    ⟨some 7, [("username", "alice"), ("password", "hunter2")], true,
      some [("username", "alice"), ("password", "hunter2")], []⟩
    (some "mallory") (by simp)
  have h2 := claim_C10
    ⟨some 7, [("username", "alice"), ("password", "hunter2")], true,
      some [("username", "alice"), ("password", "hunter2")], []⟩
    (some "stolen") (by simp)
  exact ⟨h.2.2.1, h2.2.2.2.2.2.2.1⟩

/-- On a critical exception escaping the check, the message handler resets
the handle, clears the credentials and deletes both files
(`text_message.py`, the `except CRITICAL_INSTAGRAM_EXCEPTIONS` block). -/
theorem message_handler_critical_wipe (st : AppState) (text : String) (env : CheckEnv)
    (e : IgExc) (hcl : st.instagrapi_client ≠ none)
    (he : (check_livestream_result (pyOptStr (extract_instagram_username text)) env).1
      = .error e) :
    (message_handler st text env).instagrapi_client = none ∧
    (message_handler st text env).ig_credentials = [] ∧
    (message_handler st text env).session_file = false ∧
    (message_handler st text env).credentials_file = none := by
  simp [message_handler, hcl, check_livestream, he]

theorem message_handler_client_error (st : AppState) (text : String) (env : CheckEnv)
    (e : IgExc)
    (he : (check_livestream_result (pyOptStr (extract_instagram_username text)) env).1
      = .error e) :
    (message_handler st text env).instagrapi_client = none := by
  by_cases hcl : st.instagrapi_client = none
  · simp [message_handler, hcl]
  · exact (message_handler_critical_wipe st text env e hcl he).1

/-- **C1** (confirmed).  For a `BadPassword` or `LoginRequired` login
failure: flagged as the operator's first manual attempt (which always
carries a message to reply to), the credentials, the credentials file and
the session file are unchanged and the only failure report is the
masked-credentials one; otherwise (startup retry, or the same critical
failure surfacing during a check, handled by the message handler) the
in-memory credentials are emptied, both files are deleted and the handle is
`None` afterwards. -/
theorem claim_C1 (st : AppState) (e : IgExc) (u p : String)
    (he : e = .badPassword ∨ e = .loginRequired)
    (hu : dget st.ig_credentials "username" = some u) (hune : u ≠ "")
    (hp : dget st.ig_credentials "password" = some p) (hpne : p ≠ "") :
    ((attempt_login st true true (.error e)).ig_credentials = st.ig_credentials ∧
      (attempt_login st true true (.error e)).credentials_file = st.credentials_file ∧
      (attempt_login st true true (.error e)).session_file = st.session_file ∧
      (attempt_login st true true (.error e)).instagrapi_client = none ∧
      (attempt_login st true true (.error e)).replies
        = st.replies ++ [.credentialsFoundAttempting,
            .loginFailedKeepCreds
              (if e = .badPassword then "Invalid password" else "Session expired")
              u (mask_password p)]) ∧
    (∀ hm : Bool, (attempt_login st hm false (.error e)).ig_credentials = [] ∧
      (attempt_login st hm false (.error e)).session_file = false ∧
      (attempt_login st hm false (.error e)).credentials_file = none ∧
      (attempt_login st hm false (.error e)).instagrapi_client = none) ∧
    (∀ (st2 : AppState) (text : String) (env : CheckEnv), st2.instagrapi_client ≠ none →
      (check_livestream_result (pyOptStr (extract_instagram_username text)) env).1
        = .error e →
      (message_handler st2 text env).instagrapi_client = none ∧
      (message_handler st2 text env).ig_credentials = [] ∧
      (message_handler st2 text env).session_file = false ∧
      (message_handler st2 text env).credentials_file = none) := by
  refine ⟨?_, ?_, ?_⟩
  · rcases he with rfl | rfl <;>
      simp [attempt_login, hu, hp, truthyOpt, hune, hpne, handleBadPasswordOrLoginRequired]
  · intro hm
    rcases he with rfl | rfl <;> cases hm <;>
      simp [attempt_login, hu, hp, truthyOpt, hune, hpne, handleBadPasswordOrLoginRequired]
  · intro st2 text env hcl hres
    exact message_handler_critical_wipe st2 text env e hcl hres

/-- **C1** witness: a concrete credentialed state; first manual attempt
keeps the credentials, a startup retry wipes them. -/
theorem claim_C1_witness :
    (attempt_login
        ⟨none, [("username", "alice"), ("password", "hunter2")], true,
          some [("username", "alice"), ("password", "hunter2")], []⟩
        true true (.error .badPassword)).ig_credentials
      = [("username", "alice"), ("password", "hunter2")] ∧
    (attempt_login
        ⟨none, [("username", "alice"), ("password", "hunter2")], true,
          some [("username", "alice"), ("password", "hunter2")], []⟩
        false false (.error .badPassword)).ig_credentials = [] := by
  have h := claim_C1
    ⟨none, [("username", "alice"), ("password", "hunter2")], true,
      some [("username", "alice"), ("password", "hunter2")], []⟩
    .badPassword "alice" "hunter2" (Or.inl rfl) (by decide) (by decide) (by decide) (by decide)
  exact ⟨h.1.1, (h.2.1 false).1⟩

/-- The invariant's credential side: both fields present and non-empty
(Python-truthy). -/
def credsTruthy (st : AppState) : Prop :=
  truthyOpt (dget st.ig_credentials "username") = true ∧
  truthyOpt (dget st.ig_credentials "password") = true

/-- A login attempt leaves a handle only for a successful adapter call, and
then only with truthy credentials, which it does not change. -/
theorem attempt_login_client (st : AppState) (hm f : Bool) (o : Except IgExc Nat) :
    (attempt_login st hm f o).instagrapi_client ≠ none →
      (∃ h, o = .ok h) ∧ credsTruthy st ∧
        (attempt_login st hm f o).ig_credentials = st.ig_credentials := by
  simp only [attempt_login]
  by_cases hg : truthyOpt (dget st.ig_credentials "username") = true ∧
      truthyOpt (dget st.ig_credentials "password") = true
  · rw [if_neg (not_not_intro hg)]
    cases o with
    | ok hd =>
      intro _
      refine ⟨⟨hd, rfl⟩, hg, ?_⟩
      cases hm <;> simp
    | error e =>
      intro hcl
      exfalso
      apply hcl
      cases e <;> cases hm <;> cases f <;>
        simp [handleBadPasswordOrLoginRequired]
  · rw [if_pos hg]
    intro hcl
    exact absurd rfl hcl

theorem credInv_attempt_login (st : AppState) (hm f : Bool) (o : Except IgExc Nat) :
    (attempt_login st hm f o).instagrapi_client ≠ none →
      credsTruthy (attempt_login st hm f o) := by
  intro hcl
  obtain ⟨_, hg, hcr⟩ := attempt_login_client st hm f o hcl
  unfold credsTruthy
  rw [hcr]
  exact hg

theorem attempt_login_error_client (st : AppState) (hm f : Bool) (e : IgExc) :
    (attempt_login st hm f (.error e)).instagrapi_client = none := by
  by_cases h : (attempt_login st hm f (.error e)).instagrapi_client = none
  · exact h
  · obtain ⟨⟨hd, heq⟩, _, _⟩ := attempt_login_client st hm f _ h
    exact absurd heq (by simp)

theorem logout_client (st : AppState) :
    (logout_command_handler st).instagrapi_client = none := by
  unfold logout_command_handler
  split
  · rename_i h
    simp [h.1]
  · simp

theorem credInv_set_login (st : AppState) (a : Option String)
    (ih : st.instagrapi_client ≠ none → credsTruthy st) :
    (set_login_handler st a).instagrapi_client ≠ none →
      credsTruthy (set_login_handler st a) := by
  unfold set_login_handler
  by_cases hcl : st.instagrapi_client ≠ none
  · rw [if_pos hcl]
    intro _
    have h := ih hcl
    unfold credsTruthy at h ⊢
    simpa using h
  · rw [if_neg hcl]
    rw [not_not] at hcl
    intro hcl2
    exfalso
    apply hcl2
    cases a with
    | none => simp [hcl]
    | some u =>
      simp only [save_credentials, addReply]
      split <;> simp [hcl]

theorem credInv_set_password (st : AppState) (a : Option String)
    (ih : st.instagrapi_client ≠ none → credsTruthy st) :
    (set_password_handler st a).instagrapi_client ≠ none →
      credsTruthy (set_password_handler st a) := by
  unfold set_password_handler
  by_cases hcl : st.instagrapi_client ≠ none
  · rw [if_pos hcl]
    intro _
    have h := ih hcl
    unfold credsTruthy at h ⊢
    simpa using h
  · rw [if_neg hcl]
    rw [not_not] at hcl
    intro hcl2
    exfalso
    apply hcl2
    cases a with
    | none => simp [hcl]
    | some u =>
      simp only [save_credentials, addReply]
      split <;> simp [hcl]

theorem credInv_login_cmd (st : AppState) (o : Except IgExc Nat)
    (ih : st.instagrapi_client ≠ none → credsTruthy st) :
    (login_command_handler st o).instagrapi_client ≠ none →
      credsTruthy (login_command_handler st o) := by
  unfold login_command_handler
  split
  · rename_i hcl
    intro _
    have h := ih hcl
    unfold credsTruthy at h ⊢
    simpa using h
  · split
    · exact credInv_attempt_login st true true o
    · rename_i hcl _
      rw [not_not] at hcl
      intro hcl2
      exact absurd (by simp [hcl]) hcl2

theorem credInv_status (st : AppState)
    (ih : st.instagrapi_client ≠ none → credsTruthy st) :
    (status_command_handler st).instagrapi_client ≠ none →
      credsTruthy (status_command_handler st) := by
  unfold status_command_handler
  split <;>
  · intro hcl
    have h := ih (by simpa using hcl)
    unfold credsTruthy at h ⊢
    simpa using h

theorem credInv_message (st : AppState) (text : String) (env : CheckEnv)
    (ih : st.instagrapi_client ≠ none → credsTruthy st) :
    (message_handler st text env).instagrapi_client ≠ none →
      credsTruthy (message_handler st text env) := by
  unfold message_handler
  by_cases hcl : st.instagrapi_client = none
  · rw [if_pos hcl]
    intro hcl2
    exact absurd (by simp [hcl]) hcl2
  · rw [if_neg hcl]
    simp only [check_livestream]
    split
    · intro _
      have h := ih hcl
      unfold credsTruthy at h ⊢
      simpa [check_livestream] using h
    · intro hcl2
      exact absurd (by simp) hcl2

/-- **C2** (confirmed).  Invariant of the step relation: in every reachable
state a non-`None` handle implies the in-memory credentials hold a
non-empty username and password — and since a successful login leaves the
credentials unchanged and set-commands are denied while logged in, these
are the credentials of the last successful login.  Moreover a login attempt
yields a handle only from a successful adapter call (any raised exception,
and also missing credentials after the initial defensive reset, leave the
handle `None`), logout always leaves it `None`, and a critical failure
escaping a check leaves it `None`. -/
theorem claim_C2 :
    (∀ st, Reachable st → st.instagrapi_client ≠ none → credsTruthy st) ∧
    (∀ (st : AppState) (hm f : Bool) (o : Except IgExc Nat),
      (attempt_login st hm f o).instagrapi_client ≠ none →
        (∃ h, o = .ok h) ∧ credsTruthy st ∧
          (attempt_login st hm f o).ig_credentials = st.ig_credentials) ∧
    (∀ (st : AppState) (hm f : Bool) (e : IgExc),
      (attempt_login st hm f (.error e)).instagrapi_client = none) ∧
    (∀ st : AppState, (logout_command_handler st).instagrapi_client = none) ∧
    (∀ (st : AppState) (text : String) (env : CheckEnv) (e : IgExc),
      (check_livestream_result (pyOptStr (extract_instagram_username text)) env).1
        = .error e →
      (message_handler st text env).instagrapi_client = none) := by
  refine ⟨?_, attempt_login_client, attempt_login_error_client, logout_client,
    message_handler_client_error⟩
  intro st hr
  induction hr with
  | init creds sess credF =>
    intro h
    simp at h
  | step e hr ih =>
    cases e with
    | setLoginCmd a => exact credInv_set_login _ a ih
    | setPasswordCmd a => exact credInv_set_password _ a ih
    | loginCmd o => exact credInv_login_cmd _ o ih
    | logoutCmd =>
      intro h
      exact absurd (logout_client _) h
    | statusCmd => exact credInv_status _ ih
    | startupLogin o => exact credInv_attempt_login _ false false o
    | textMessage text env => exact credInv_message _ text env ih

/-- **C2** witness: from a fresh state with both credentials set, a manual
login with a successful adapter call reaches a logged-in state, and the
invariant instantiates there. -/
theorem claim_C2_witness :
    credsTruthy (step ⟨none, [("username", "a"), ("password", "b")], false, none, []⟩
      (.loginCmd (.ok 5))) := by
  have hr : Reachable (step ⟨none, [("username", "a"), ("password", "b")], false, none, []⟩
      (.loginCmd (.ok 5))) :=
    Reachable.step _ (Reachable.init _ _ _)
  exact claim_C2.1 _ hr (by decide)

/-- **C3** (confirmed).  With an authenticated handle: a private, not
followed profile yields the `private-blocked` outcome with its explanatory
message, after only the profile and friendship calls (no broadcast
lookup); a public (or private-and-followed) profile with a broadcast
object yields `success-live` carrying the broadcast's id and playback
manifest URL; with no broadcast object, `success-not-live`. -/
theorem claim_C3 (st : AppState) (username : String) (env : CheckEnv) (pk : Nat)
    (b : IgBroadcast) :
    (env.user_info = .ok ⟨pk, true⟩ → env.friendship_following = .ok false →
      check_livestream st username env
        = ((.ok (.privateBlocked (.privateAccountMsg username)),
            [.userInfoCall username, .friendshipCall pk]), st) ∧
      ∀ pk2, RemoteCall.storyCall pk2 ∉ (check_livestream st username env).1.2) ∧
    (env.user_info = .ok ⟨pk, false⟩ → env.story_broadcast = .ok (some b) →
      check_livestream st username env
        = ((.ok (.success_live b.id b.dash_playback_url),
            [.userInfoCall username, .storyCall pk]), st)) ∧
    (env.user_info = .ok ⟨pk, true⟩ → env.friendship_following = .ok true →
      env.story_broadcast = .ok (some b) →
      check_livestream st username env
        = ((.ok (.success_live b.id b.dash_playback_url),
            [.userInfoCall username, .friendshipCall pk, .storyCall pk]), st)) ∧
    (env.user_info = .ok ⟨pk, false⟩ → env.story_broadcast = .ok none →
      check_livestream st username env
        = ((.ok .success_not_live, [.userInfoCall username, .storyCall pk]), st)) := by
  refine ⟨?_, ?_, ?_, ?_⟩
  · intro h1 h2
    have heq : check_livestream st username env
        = ((.ok (.privateBlocked (.privateAccountMsg username)),
            [.userInfoCall username, .friendshipCall pk]), st) := by
      simp [check_livestream, check_livestream_result, h1, h2]
    refine ⟨heq, ?_⟩
    intro pk2
    rw [heq]
    simp
  · intro h1 h2
    simp [check_livestream, check_livestream_result, h1, h2]
  · intro h1 h2 h3
    simp [check_livestream, check_livestream_result, h1, h2, h3]
  · intro h1 h2
    simp [check_livestream, check_livestream_result, h1, h2]

/-- **C3** witness: the three scenarios at concrete environments. -/
theorem claim_C3_witness :
    check_livestream ⟨some 7, [], true, none, []⟩ "john"
        ⟨.ok ⟨42, true⟩, .ok false, .ok (some ⟨some "B1", some "U1"⟩)⟩
      = ((.ok (.privateBlocked (.privateAccountMsg "john")),
          [.userInfoCall "john", .friendshipCall 42]), ⟨some 7, [], true, none, []⟩) ∧
    check_livestream ⟨some 7, [], true, none, []⟩ "john"
        ⟨.ok ⟨42, false⟩, .ok false, .ok (some ⟨some "B1", some "U1"⟩)⟩
      = ((.ok (.success_live (some "B1") (some "U1")),
          [.userInfoCall "john", .storyCall 42]), ⟨some 7, [], true, none, []⟩) ∧
    check_livestream ⟨some 7, [], true, none, []⟩ "john"
        ⟨.ok ⟨42, false⟩, .ok false, .ok none⟩
      = ((.ok .success_not_live, [.userInfoCall "john", .storyCall 42]),
          ⟨some 7, [], true, none, []⟩) := by
  refine ⟨?_, ?_, ?_⟩
  · exact ((claim_C3 ⟨some 7, [], true, none, []⟩ "john"
      ⟨.ok ⟨42, true⟩, .ok false, .ok (some ⟨some "B1", some "U1"⟩)⟩ 42
      ⟨some "B1", some "U1"⟩).1 rfl rfl).1
  · exact (claim_C3 ⟨some 7, [], true, none, []⟩ "john"
      ⟨.ok ⟨42, false⟩, .ok false, .ok (some ⟨some "B1", some "U1"⟩)⟩ 42
      ⟨some "B1", some "U1"⟩).2.1 rfl rfl
  · exact (claim_C3 ⟨some 7, [], true, none, []⟩ "john"
      ⟨.ok ⟨42, false⟩, .ok false, .ok none⟩ 42
      ⟨some "B1", some "U1"⟩).2.2.2 rfl rfl

theorem classify_error_critical (username : String) (e e2 : IgExc) :
    classify_check_exception username e = .error e2 →
      e2 = e ∧ isCriticalException e = true := by
  cases e <;> simp [classify_check_exception, isCriticalException, eq_comm]

/-- **C4** (confirmed).  The live check classifies errors exactly as the
claim states: account-not-found and action-temporarily-blocked become
`error` results with the corresponding messages, every exception of the
critical set is re-raised (and only those — any `Except.error` outcome of
the check carries a critical exception), and any other exception becomes a
generic `error` result; the same classification applies to errors of the
broadcast-status call; and the check never mutates the shared state
(credentials, handle or files). -/
theorem claim_C4 (st : AppState) (username : String) (env : CheckEnv) (pk : Nat) :
    ((check_livestream st username env).2 = st) ∧
    (∀ e, (check_livestream st username env).1.1 = .error e →
      isCriticalException e = true) ∧
    (env.user_info = .error .userNotFound →
      (check_livestream st username env).1.1
        = .ok (.error (.userNotFoundMsg username))) ∧
    (∀ txt, env.user_info = .error (.feedbackRequired txt) →
      (check_livestream st username env).1.1 = .ok (.error (.actionBlockedMsg txt))) ∧
    (∀ e, isCriticalException e = true → env.user_info = .error e →
      (check_livestream st username env).1.1 = .error e) ∧
    (∀ txt, env.user_info = .error (.otherError txt) →
      (check_livestream st username env).1.1 = .ok (.error (.unexpectedErrorMsg txt))) ∧
    (env.user_info = .ok ⟨pk, false⟩ →
      (env.story_broadcast = .error .userNotFound →
        (check_livestream st username env).1.1
          = .ok (.error (.userNotFoundMsg username))) ∧
      (∀ txt, env.story_broadcast = .error (.feedbackRequired txt) →
        (check_livestream st username env).1.1 = .ok (.error (.actionBlockedMsg txt))) ∧
      (∀ e, isCriticalException e = true → env.story_broadcast = .error e →
        (check_livestream st username env).1.1 = .error e) ∧
      (∀ txt, env.story_broadcast = .error (.otherError txt) →
        (check_livestream st username env).1.1
          = .ok (.error (.unexpectedErrorMsg txt)))) := by
  refine ⟨rfl, ?_, ?_, ?_, ?_, ?_, ?_⟩
  · intro e he
    simp only [check_livestream, check_livestream_result] at he
    repeat' split at he
    all_goals first
      | (obtain ⟨h1, h2⟩ := classify_error_critical username _ _ he
         rw [h1]
         exact h2)
      | (cases he)
  · intro h1
    simp [check_livestream, check_livestream_result, h1, classify_check_exception]
  · intro txt h1
    simp [check_livestream, check_livestream_result, h1, classify_check_exception]
  · intro e hcrit h1
    cases e <;> simp_all [check_livestream, check_livestream_result,
      classify_check_exception, isCriticalException]
  · intro txt h1
    simp [check_livestream, check_livestream_result, h1, classify_check_exception]
  · intro h1
    refine ⟨?_, ?_, ?_, ?_⟩
    · intro h2
      simp [check_livestream, check_livestream_result, h1, h2, classify_check_exception]
    · intro txt h2
      simp [check_livestream, check_livestream_result, h1, h2, classify_check_exception]
    · intro e hcrit h2
      cases e <;> simp_all [check_livestream, check_livestream_result,
        classify_check_exception, isCriticalException]
    · intro txt h2
      simp [check_livestream, check_livestream_result, h1, h2, classify_check_exception]

/-- **C4** witness: classification at concrete environments. -/
theorem claim_C4_witness :
    (check_livestream ⟨some 7, [], true, none, []⟩ "john"
        ⟨.error .userNotFound, .ok false, .ok none⟩).1.1
      = .ok (.error (.userNotFoundMsg "john")) ∧
    (check_livestream ⟨some 7, [], true, none, []⟩ "john"
        ⟨.error .badPassword, .ok false, .ok none⟩).1.1 = .error .badPassword ∧
    (check_livestream ⟨some 7, [], true, none, []⟩ "john"
        ⟨.ok ⟨42, false⟩, .ok false, .error .loginRequired⟩).1.1
      = .error .loginRequired ∧
    (check_livestream ⟨some 7, [], true, none, []⟩ "john"
        ⟨.error .userNotFound, .ok false, .ok none⟩).2 = ⟨some 7, [], true, none, []⟩ := by
  refine ⟨?_, ?_, ?_, ?_⟩
  · exact (claim_C4 ⟨some 7, [], true, none, []⟩ "john"
      ⟨.error .userNotFound, .ok false, .ok none⟩ 0).2.2.1 rfl
  · exact (claim_C4 ⟨some 7, [], true, none, []⟩ "john"
      ⟨.error .badPassword, .ok false, .ok none⟩ 0).2.2.2.2.1 .badPassword (by decide) rfl
  · exact ((claim_C4 ⟨some 7, [], true, none, []⟩ "john"
      ⟨.ok ⟨42, false⟩, .ok false, .error .loginRequired⟩ 42).2.2.2.2.2.2 rfl).2.2.1
      .loginRequired (by decide) rfl
  · exact (claim_C4 ⟨some 7, [], true, none, []⟩ "john"
      ⟨.error .userNotFound, .ok false, .ok none⟩ 0).1

/-! ## File-write mechanics of `persist()` (`save_credentials`)

`save_credentials` executes `open(CREDENTIALS_FILE, "wb")` — which
truncates the target file in place — followed by `f.write(encrypted_data)`.
There is no temporary file and no rename.  The two operations are modelled
below; the file content is `none` when the file does not exist, otherwise
the byte list it holds. -/

/-- The file-system operations `save_credentials` performs on the
credentials file, in order. -/
inductive FsOp
  | openTruncate
  | writeAll (data : List Nat)
  deriving DecidableEq

/-- Effect of one operation on the credentials-file content. -/
def fsApply (content : Option (List Nat)) : FsOp → Option (List Nat)
  | .openTruncate => some []
  | .writeAll d => some (content.getD [] ++ d)

/-- `save_credentials`' operation sequence, for the encrypted blob it
writes (`encrypt_data` of the current in-memory credentials): open the
target in `"wb"` mode (truncate in place), then one write. -/
def save_credentials_ops (blob : List Nat) : List FsOp :=
  [.openTruncate, .writeAll blob]

/-- **C9** (corrected).  `persist()` does encrypt the full current
in-memory struct and ends with the file holding exactly the new blob, but
it overwrites the file *in place* (truncate-then-write), not atomically:
there is no temporary file and no rename, and the intermediate state after
the truncating open leaves the file present but holding neither the old
nor the new secret — a crash there leaves a half-written (empty) secret
file. -/
theorem claim_C9_amended (old : Option (List Nat)) (blob : List Nat) :
    ((save_credentials_ops blob).foldl fsApply old = some blob) ∧
    (blob ≠ [] → old ≠ some [] →
      ∃ k, (((save_credentials_ops blob).take k).foldl fsApply old ≠ old ∧
        ((save_credentials_ops blob).take k).foldl fsApply old ≠ some blob)) ∧
    (∀ op ∈ save_credentials_ops blob, op = .openTruncate ∨ op = .writeAll blob) := by
  refine ⟨by simp [save_credentials_ops, fsApply], ?_, ?_⟩
  · intro hblob hold
    refine ⟨1, ?_, ?_⟩
    · simpa [save_credentials_ops, fsApply] using fun h => hold h.symm
    · simpa [save_credentials_ops, fsApply, eq_comm] using hblob
  · intro op hop
    simpa [save_credentials_ops] using hop

/-- **C9** counterexample to the claim as stated: with the file holding an
old three-byte secret and a new three-byte blob to persist, the state
reached after the first operation (the truncating open) is an existing but
empty file — neither the old secret nor the new one — so a crash there
leaves a half-written secret file; no write-to-temporary-then-rename is
performed. -/
theorem claim_C9_counterexample :
    (((save_credentials_ops [4, 5, 6]).take 1).foldl fsApply (some [1, 2, 3])
      = some []) ∧
    some ([] : List Nat) ≠ some [1, 2, 3] ∧
    some ([] : List Nat) ≠ some [4, 5, 6] ∧
    ((save_credentials_ops [4, 5, 6]).foldl fsApply (some [1, 2, 3]) = some [4, 5, 6]) := by
  decide

/-- **C9** witness: the amended theorem at a concrete old content and
blob. -/
theorem claim_C9_witness :
    (save_credentials_ops [4, 5, 6]).foldl fsApply (some [1, 2, 3]) = some [4, 5, 6] ∧
    ∃ k, (((save_credentials_ops [4, 5, 6]).take k).foldl fsApply (some [1, 2, 3])
        ≠ some [1, 2, 3] ∧
      ((save_credentials_ops [4, 5, 6]).take k).foldl fsApply (some [1, 2, 3])
        ≠ some [4, 5, 6]) := by
  have h := claim_C9_amended (some [1, 2, 3]) [4, 5, 6]
  exact ⟨h.1, h.2.1 (by decide) (by decide)⟩

end InstaBot
